import Mathlib

/-!
Verification of the recruitment-chatbot query pipeline
(`src/services/embeddingService.ts`, class `ChatService`).

The TypeScript code is shallowly embedded: JS strings are Lean `String`s
(operated on through `List Char`), JS numbers are `Nat`/`ℚ`, JS `null` is
`Option.none`, the external Supabase store and the OpenAI completion API are
oracles passed in explicitly.  A Supabase read that errors yields `data = null`
in the source, and every strategy of `smartSearch` guards its read with
`if (data && data.length > 0)`, so `null` and `[]` are indistinguishable there;
store reads are therefore modelled as plain lists with `[]` standing for
"no rows or store error".
-/

namespace ChatService

/-- JS `\s` (whitespace class), restricted to the ASCII range used by the data. -/
def isJsSpace (c : Char) : Bool :=
  c = ' ' || c = '\t' || c = '\n' || c = '\r' || c = Char.ofNat 11 || c = Char.ofNat 12

/-- JS regex `\w` class: `[A-Za-z0-9_]`. -/
def isWordChar (c : Char) : Bool :=
  ('a' ≤ c && c ≤ 'z') || ('A' ≤ c && c ≤ 'Z') || ('0' ≤ c && c ≤ '9') || c = '_'

/-- ASCII letter (JS `[A-Z]` under the `i` flag, or `[A-Za-z]`). -/
def isAsciiLetter (c : Char) : Bool :=
  ('a' ≤ c && c ≤ 'z') || ('A' ≤ c && c ≤ 'Z')

/-- ASCII uppercase letter (JS `[A-Z]` without the `i` flag). -/
def isUpperLetter (c : Char) : Bool := 'A' ≤ c && c ≤ 'Z'

/-- ASCII lowercase letter (JS `[a-z]` without the `i` flag). -/
def isLowerLetter (c : Char) : Bool := 'a' ≤ c && c ≤ 'z'

/-- ASCII digit (JS `\d`). -/
def isDigitChar (c : Char) : Bool := '0' ≤ c && c ≤ '9'

/-- JS `String.prototype.toLowerCase` on the ASCII data handled here. -/
def jsToLower (s : String) : String := String.mk (s.toList.map Char.toLower)

/-- JS `String.prototype.trim`: strip leading and trailing whitespace. -/
def jsTrimList (l : List Char) : List Char :=
  ((l.dropWhile fun c => isJsSpace c).reverse.dropWhile fun c => isJsSpace c).reverse

def jsTrim (s : String) : String := String.mk (jsTrimList s.toList)

/-- Core of JS `String.prototype.includes` on char lists. -/
def listIncludes (sub : List Char) : List Char → Bool
  | [] => sub.isPrefixOf []
  | c :: cs => sub.isPrefixOf (c :: cs) || listIncludes sub cs

/-- JS `hay.includes(sub)`. -/
def jsIncludes (hay sub : String) : Bool := listIncludes sub.toList hay.toList

/-- JS `hay.startsWith(pre)`. -/
def jsStartsWith (hay pre : String) : Bool := pre.toList.isPrefixOf hay.toList

/-- JS `s.split(' ')` on char lists (single-space separator, empty pieces kept). -/
def splitSpaceList (l : List Char) : List (List Char) :=
  l.foldr
    (fun c acc =>
      match acc with
      | [] => [[]]
      | g :: gs => if c = ' ' then [] :: g :: gs else (c :: g) :: gs)
    [[]]

/-- JS `s.split(' ')` (single-space separator, empty pieces kept). -/
def jsSplitSpace (s : String) : List String := (splitSpaceList s.toList).map String.mk

/-- Value of a run of decimal digits, i.e. JS `parseInt` on a digit string. -/
def digitsToNat (ds : List Char) : Nat :=
  ds.foldl (fun a c => a * 10 + (c.toNat - 48)) 0

/-- Scan a string left to right and return the first position where the
partial matcher `f` succeeds — the JS regex engine's leftmost-match rule. -/
def scanFirst (f : List Char → Option α) : List Char → Option α
  | [] => f []
  | c :: cs => (f (c :: cs)).orElse fun _ => scanFirst f cs

/-- Consume a case-insensitive literal, returning the rest of the input. -/
def litCI (lit : List Char) (l : List Char) : Option (List Char) :=
  match lit, l with
  | [], rest => some rest
  | _ :: _, [] => none
  | a :: as, c :: cs => if a.toLower = c.toLower then litCI as cs else none

/-- Consume a case-sensitive literal, returning the rest of the input. -/
def litCS (lit : List Char) (l : List Char) : Option (List Char) :=
  if lit.isPrefixOf l then some (l.drop lit.length) else none

/-- First alternative (in order) that succeeds — JS alternation semantics. -/
def firstSome : List (Option α) → Option α
  | [] => none
  | o :: os => o.orElse fun _ => firstSome os

-- ============================================
-- normalizeForSearch / calculateSimilarity
-- (source lines 721–744)
-- ============================================

/-- `text.toLowerCase().replace(/[^\w\s]/g,' ').replace(/\s+/g,' ').trim()`.
The middle `replace` collapses every whitespace run to a single space;
`collapseWs` implements it directly. -/
def collapseWsAux : Bool → List Char → List Char
  | _, [] => []
  | inRun, c :: cs =>
    if isJsSpace c then
      if inRun then collapseWsAux true cs else ' ' :: collapseWsAux true cs
    else c :: collapseWsAux false cs

def collapseWs (l : List Char) : List Char := collapseWsAux false l

def normalizeForSearch (text : String) : String :=
  let l := text.toList.map Char.toLower
  let l := l.map fun c => if isWordChar c || isJsSpace c then c else ' '
  String.mk (jsTrimList (collapseWs l))

/-- `calculateSimilarity` (source lines 730–744).  The final branch divides the
character-set intersection size by the union size; in JS a `0/0` would produce
`NaN`, so the division is modelled as fallible (`none` exactly when the union
is empty) to record that the defined branches never divide by zero. -/
def calculateSimilarity (str1 str2 : String) : Option ℚ :=
  let s1 := normalizeForSearch str1
  let s2 := normalizeForSearch str2
  if s1 = s2 then some 1
  else if jsIncludes s1 s2 || jsIncludes s2 s1 then some (4/5)
  else
    let chars1 := s1.toList.toFinset
    let chars2 := s2.toList.toFinset
    let inter := chars1 ∩ chars2
    let union := chars1 ∪ chars2
    if union.card = 0 then none
    else some ((inter.card : ℚ) / (union.card : ℚ))

/-- JS `calculateSimilarity(a, b) > t` at the call sites: a `NaN` similarity
(empty union) compares false. -/
def simGT (a b : String) (t : ℚ) : Bool :=
  match calculateSimilarity a b with
  | some v => t < v
  | none => false

/-- Stable insertion step: `a` goes after every element `b` with `le b a`. -/
def insertBy (le : α → α → Bool) (a : α) : List α → List α
  | [] => [a]
  | b :: bs => if le b a then b :: insertBy le a bs else a :: b :: bs

/-- Stable sort, modelling the (stable) JS `Array.prototype.sort`. -/
def stableSortBy (le : α → α → Bool) (l : List α) : List α :=
  l.foldl (fun acc a => insertBy le a acc) []

-- ============================================
-- Pattern extractors (source lines 611–801)
-- ============================================

def litCIStr (lit : String) (l : List Char) : Option (List Char) := litCI lit.toList l

/-- JS regex `[\w.-]` (the email character class). -/
def isEmailChar (c : Char) : Bool := isWordChar c || c = '.' || c = '-'

/-- Greedy backtracking of `[\w.-]+` before `\.\w+` inside the maximal
`[\w.-]` run after the `@`: the engine settles on the rightmost dot that is
directly followed by a word character, and the trailing `\w+` is maximal.
Returns the matched domain portion of the run. -/
def lastDotSplit : List Char → Option (List Char)
  | [] => none
  | c :: cs =>
    match lastDotSplit cs with
    | some rest => some (c :: rest)
    | none =>
      if c = '.' then
        let w := cs.takeWhile fun d => isWordChar d
        if w.isEmpty then none else some (c :: w)
      else none

/-- One attempt of `/[\w.-]+@[\w.-]+\.\w+/` at the current position.  The
local part is the maximal `[\w.-]` run (safe: `@` is not in the class). -/
def emailMatchAt (l : List Char) : Option (List Char) :=
  let lp := l.takeWhile fun c => isEmailChar c
  if lp.isEmpty then none
  else
    match l.drop lp.length with
    | '@' :: r2 =>
      let run := r2.takeWhile fun c => isEmailChar c
      (lastDotSplit run).map fun dom => lp ++ '@' :: dom
    | _ => none

/-- `extractEmail` (source lines 620–623). -/
def extractEmail (query : String) : Option String :=
  (scanFirst emailMatchAt query.toList).map String.mk

/-- `[6-9]\d{9}` — a 10-digit Indian mobile number (group 2 of the regex). -/
def phoneCore (l : List Char) : Option (List Char) :=
  match l with
  | c :: cs =>
    if '6' ≤ c && c ≤ '9' then
      let ds := cs.takeWhile fun d => isDigitChar d
      if ds.length ≥ 9 then some (c :: ds.take 9) else none
    else none
  | [] => none

/-- `(\+91)?[\s-]?` then the 10-digit core; both optionals are greedy, so the
with-prefix / with-separator parses are attempted first. -/
def phoneMatchAt (l : List Char) : Option (List Char) :=
  let tail := fun (r : List Char) =>
    firstSome
      [ (match r with
         | c :: cs => if isJsSpace c || c = '-' then phoneCore cs else none
         | [] => none),
        phoneCore r ]
  firstSome
    [ (match l with
       | '+' :: '9' :: '1' :: rest => tail rest
       | _ => none),
      tail l ]

/-- `extractPhone` (source lines 625–628); returns the bare 10 digits. -/
def extractPhone (query : String) : Option String :=
  (scanFirst phoneMatchAt query.toList).map String.mk

/-- One attempt of `/([A-Z]{2,4}\d+)/i`: 2–4 letters (greedy, longest first)
followed by at least one digit (maximal). -/
def jobIdMatchAt (l : List Char) : Option (List Char) :=
  firstSome <| [4, 3, 2].map fun k =>
    let pre := l.take k
    if pre.length = k && pre.all (fun c => isAsciiLetter c) then
      let ds := (l.drop k).takeWhile fun d => isDigitChar d
      if ds.isEmpty then none else some (pre ++ ds)
    else none

/-- `extractJobId` (source lines 630–633); match normalised to uppercase. -/
def extractJobId (query : String) : Option String :=
  (scanFirst jobIdMatchAt query.toList).map fun m => String.mk (m.map Char.toUpper)

inductive CmpDir
  | lt
  | gt
deriving DecidableEq, Repr

/-- A comparator literal, then `\s*`, then `(\d+)`, then `\s*`, then a
case-insensitive closing literal (`year` …).  All runs are maximal, which is
faithful: every follower is outside the preceding class. -/
def cmpNumLitAt (lits : List String) (closing : String) (l : List Char) : Option Nat :=
  firstSome <| lits.map fun lit =>
    (litCIStr lit l).bind fun r1 =>
      let r2 := r1.dropWhile fun c => isJsSpace c
      let ds := r2.takeWhile fun c => isDigitChar c
      if ds.isEmpty then none
      else
        let r3 := (r2.drop ds.length).dropWhile fun c => isJsSpace c
        (litCIStr closing r3).map fun _ => digitsToNat ds

/-- `extractExperience` (source lines 635–646): the two top-level regex
alternatives, then the operator recomputed from substring checks on the
lowercased query (as in the source — not from which alternative matched). -/
def extractExperience (query : String) : Option (Nat × CmpDir) :=
  let m := scanFirst
    (fun l => firstSome
      [ cmpNumLitAt ["above", "more than", "over", "greater than", ">"] "year" l,
        cmpNumLitAt ["less than", "below", "under", "<"] "year" l ])
    query.toList
  m.map fun years =>
    let lq := jsToLower query
    let op := if jsIncludes lq "above" || jsIncludes lq "more" ||
        jsIncludes lq "over" || jsIncludes lq "greater" then CmpDir.gt else CmpDir.lt
    (years, op)

/-- One attempt of `/(\d+)\s*(l|lakh|lpa)/i`.  The digit and space runs are
maximal (safe: their followers are outside the classes), and every
alternative of `l|lakh|lpa` begins with `l`, so under `/i` the attempt
succeeds exactly when an `l` or `L` follows the spaces. -/
def salaryMatchAt (s : List Char) : Option Nat :=
  let ds := s.takeWhile fun c => isDigitChar c
  let tl := (s.dropWhile fun c => isDigitChar c).dropWhile fun c => isJsSpace c
  match ds, tl with
  | [], _ => none
  | _ :: _, [] => none
  | _ :: _, c :: _ => if c = 'l' || c = 'L' then some (digitsToNat ds) else none

/-- `extractSalary` (source lines 648–654).  Note the `below`/`under`
containment checks run on the raw query (the source does not lowercase it
here). -/
def extractSalary (query : String) : Option (Nat × CmpDir) :=
  (scanFirst salaryMatchAt query.toList).map fun n =>
    (n * 100000,
     if jsIncludes query "below" || jsIncludes query "under" then CmpDir.lt else CmpDir.gt)

/-- One attempt of `/score\s*(above|below|over|under|>|<)\s*(\d+)/i`,
returning the comparator group and the number. -/
def scoreMatchAt (l : List Char) : Option (String × Nat) :=
  (litCIStr "score" l).bind fun r1 =>
    let r2 := r1.dropWhile fun c => isJsSpace c
    firstSome <| ["above", "below", "over", "under", ">", "<"].map fun op =>
      (litCIStr op r2).bind fun r3 =>
        let r4 := r3.dropWhile fun c => isJsSpace c
        let ds := r4.takeWhile fun c => isDigitChar c
        if ds.isEmpty then none else some (op, digitsToNat ds)

/-- `extractScore` (source lines 656–662). -/
def extractScore (query : String) : Option (Nat × CmpDir) :=
  (scanFirst scoreMatchAt query.toList).map fun (op, n) =>
    (n, if op = "below" || op = "under" || op = "<" then CmpDir.lt else CmpDir.gt)

/-- The fixed skill vocabulary (source lines 665–675). -/
def skillKeywords : List String :=
  ["javascript", "typescript", "react", "node", "python", "java",
   "dialogflow", "playwright", "aws", "azure", "gcp", "servicenow", "service now",
   "sql", "mongodb", "kubernetes", "docker", "angular", "vue",
   "sap", "fico", "abap", "hana", "erp", "crm", "power bi", "powerbi",
   "tableau", "excel", "data science", "machine learning", "ml",
   "ai", "artificial intelligence", "deep learning", "nlp",
   "c++", "c#", "golang", "rust", "php", "ruby", "scala",
   "jenkins", "gitlab", "github", "devops", "ci/cd", "cicd",
   "sap fico", "sap mm", "sap sd", "sap hana", "sap abap"]

/-- `extractSkill` (source lines 664–688).  The inline normalisation pipeline
(lowercase, strip punctuation, collapse spaces, trim) is the same as
`normalizeForSearch`; matches are sorted by length, longest first (stable). -/
def extractSkill (query : String) : Option String :=
  let lowerQuery := normalizeForSearch query
  let hits := stableSortBy (fun a b => (b : String).length ≤ (a : String).length)
    (skillKeywords.filter fun skill => jsIncludes lowerQuery skill)
  hits.head?

/-- The fixed job-title vocabulary (source lines 691–705); the duplicate
`data analyst` entry of the source is kept. -/
def jobTitles : List String :=
  ["data scientist", "data analyst", "data engineer",
   "software engineer", "software developer", "developer",
   "full stack", "fullstack", "frontend", "front end", "backend", "back end",
   "devops engineer", "devops",
   "sap consultant", "sap fico", "sap mm", "sap sd", "sap hana", "sap abap",
   "business analyst", "business intelligence",
   "project manager", "product manager",
   "qa engineer", "quality assurance", "tester",
   "ui/ux designer", "ux designer", "ui designer",
   "cloud architect", "solution architect", "technical architect",
   "machine learning engineer", "ml engineer", "ai engineer",
   "data analyst", "mis executive", "mis analyst",
   "accounts executive", "accountant", "finance manager"]

/-- `extractJobTitle` (source lines 690–718). -/
def extractJobTitle (query : String) : Option String :=
  let lowerQuery := normalizeForSearch query
  let hits := stableSortBy (fun a b => (b : String).length ≤ (a : String).length)
    (jobTitles.filter fun title => jsIncludes lowerQuery title)
  hits.head?

/-- One attempt of `/(?:top|first|best|show|list|give me|find)\s+(\d+)/i`. -/
def countMatchAt1 (l : List Char) : Option Nat :=
  firstSome <| ["top", "first", "best", "show", "list", "give me", "find"].map fun kw =>
    (litCIStr kw l).bind fun r =>
      match r with
      | c :: _ =>
        if isJsSpace c then
          let ds := (r.dropWhile fun d => isJsSpace d).takeWhile fun d => isDigitChar d
          if ds.isEmpty then none else some (digitsToNat ds)
        else none
      | [] => none

/-- One attempt of `/(\d+)\s+(?:candidates|jobs|clients|people|profiles)/i`. -/
def countMatchAt2 (l : List Char) : Option Nat :=
  let ds := l.takeWhile fun d => isDigitChar d
  if ds.isEmpty then none
  else
    match l.drop ds.length with
    | c :: _ =>
      if isJsSpace c then
        let r2 := (l.drop ds.length).dropWhile fun d => isJsSpace d
        firstSome <| ["candidates", "jobs", "clients", "people", "profiles"].map fun n =>
          (litCIStr n r2).map fun _ => digitsToNat ds
      else none
    | [] => none

/-- The per-pattern range gate of `extractRequestedCount`: an out-of-range
match does not return — the loop moves on to the next pattern. -/
def tryCountRange (o : Option Nat) : Option Nat :=
  o.bind fun c => if 1 ≤ c && c ≤ 100 then some c else none

/-- `extractRequestedCount` (source lines 782–801). -/
def extractRequestedCount (query : String) : Option Nat :=
  (tryCountRange (scanFirst countMatchAt1 query.toList)).orElse fun _ =>
    tryCountRange (scanFirst countMatchAt2 query.toList)

-- ============================================
-- Query classifier (source lines 500–549)
-- ============================================

inductive QType
  | greeting
  | recruitment
  | off_topic
  | help
  | unclear
deriving DecidableEq, Repr

structure Classification where
  type : QType
  confidence : ℚ
deriving Repr

def greetingsList : List String :=
  ["hi", "hello", "hey", "good morning", "good afternoon", "good evening", "greetings"]

def helpKeywordsList : List String :=
  ["help", "what can you do", "how do you work", "capabilities", "features"]

def recruitmentKeywords : List String :=
  ["candidate", "job", "position", "opening", "vacancy", "role", "hire", "hiring",
   "resume", "cv", "skill", "experience", "interview", "status", "application",
   "salary", "ctc", "compensation", "location", "qualification", "education",
   "client", "project", "screening", "selected", "rejected", "pipeline",
   "analytics", "report", "metrics", "jd", "job description", "profile"]

/-- `[A-Z][a-z]+` at the current position: consumed word and rest.  The
lowercase run is maximal, which is faithful — a shorter run leaves a lowercase
follower, which none of the continuations (`\s`, `\b`, `**`) accept. -/
def capLowWord (l : List Char) : Option (List Char × List Char) :=
  match l with
  | c :: cs =>
    if isUpperLetter c then
      let lows := cs.takeWhile fun d => isLowerLetter d
      if lows.isEmpty then none else some (c :: lows, cs.drop lows.length)
    else none
  | [] => none

/-- `\s+`: consumed whitespace and rest. -/
def wsPlus (l : List Char) : Option (List Char × List Char) :=
  let sp := l.takeWhile fun c => isJsSpace c
  if sp.isEmpty then none else some (sp, l.drop sp.length)

/-- Greedily count the `(?:\s+[A-Z][a-z]+)` groups from the current position;
returns the count and the rest after them. -/
def nameReps : List Char → Nat → Nat × List Char
  | l, 0 => (0, l)
  | l, fuel + 1 =>
    match wsPlus l with
    | none => (0, l)
    | some (_, r1) =>
      match capLowWord r1 with
      | none => (0, l)
      | some (_, r2) =>
        let (n, r) := nameReps r2 fuel
        (n + 1, r)

/-- One attempt of `/\b[A-Z][a-z]+(?:\s+[A-Z][a-z]+)+\b/` at the current
position (the leading `\b` is checked by the caller).  With the maximal
parse of `n` repeated groups, the trailing `\b` holds outright when the
follower is a non-word character; otherwise the engine backtracks one group,
after which the follower is the whitespace that began the dropped group, so
any `n ≥ 2` also matches. -/
def namePatternAt (l : List Char) : Bool :=
  match capLowWord l with
  | some (_, rest) =>
    let (n, r) := nameReps rest rest.length
    n ≥ 2 || (n = 1 && (match r with
      | [] => true
      | c :: _ => !isWordChar c))
  | none => false

def namePatternGo : Option Char → List Char → Bool
  | _, [] => false
  | prev, c :: cs =>
    ((match prev with
      | none => true
      | some p => !isWordChar p) && namePatternAt (c :: cs)) || namePatternGo (some c) cs

/-- `namePattern.test(query)` of `classifyQuery` (source line 537–538). -/
def namePatternTest (query : String) : Bool := namePatternGo none query.toList

/-- `classifyQuery` (source lines 500–549). -/
def classifyQuery (query : String) : Classification :=
  let lowerQuery := jsTrim (jsToLower query)
  if greetingsList.any (fun g => lowerQuery = g || jsStartsWith lowerQuery (g ++ " ")) then
    { type := .greeting, confidence := 1 }
  else if helpKeywordsList.any (fun kw => jsIncludes lowerQuery kw) then
    { type := .help, confidence := 9/10 }
  else
    let hasRecruitmentKeyword := recruitmentKeywords.any fun kw => jsIncludes lowerQuery kw
    let hasIdentifier := (extractEmail query).isSome || (extractPhone query).isSome ||
      (extractJobId query).isSome
    if hasRecruitmentKeyword || hasIdentifier then
      { type := .recruitment, confidence := 9/10 }
    else if namePatternTest query && (jsSplitSpace query).length ≤ 5 then
      { type := .recruitment, confidence := 7/10 }
    else if (jsSplitSpace query).length ≤ 3 && !hasRecruitmentKeyword then
      { type := .unclear, confidence := 1/2 }
    else
      { type := .off_topic, confidence := 4/5 }

-- ============================================
-- Data model (rows of the external store)
-- ============================================

/-- A JS field that may hold either a string or an array of strings (the
source checks `Array.isArray(candidate.skills)` before using it). -/
inductive StrOrArr
  | str (v : String)
  | arr (v : List String)
deriving DecidableEq, Repr

/-- JS string-join with `' '` of a `skills` field, with `null` → `''`
(source idiom `skills ? (Array.isArray(skills) ? skills.join(' ') : skills) : ''`). -/
def joinSkills : Option StrOrArr → String
  | none => ""
  | some (.str v) => v
  | some (.arr v) => String.intercalate " " v

/-- JS falsiness of the `skills` field (`!candidate.skills`): `null` and the
empty string are falsy, an array (even empty) is truthy. -/
def skillsFalsy : Option StrOrArr → Bool
  | none => true
  | some (.str v) => v = ""
  | some (.arr _) => false

/-- `Array.isArray(skills) ? skills : [skills]` (skill-search strategy). -/
def skillsAsArray : Option StrOrArr → List String
  | none => []
  | some (.str v) => [v]
  | some (.arr v) => v

structure Cand where
  name : String
  email : String
  phone : String
  status : String
  interview_result : String
  location : String
  skills : Option StrOrArr
  experience : String
  resume_text : String
  overall_score : Option Nat
  expected_salary : Option Nat
deriving DecidableEq, Repr

structure Job where
  job_id : String
  title : String
  status : String
  skills : Option StrOrArr
  description : String
  location : String
deriving DecidableEq, Repr

structure Client where
  name : String
  status : String
deriving DecidableEq, Repr

structure Contact where
  name : String
deriving DecidableEq, Repr

structure StatusRow where
  name : String
  display_order : Nat
deriving DecidableEq, Repr

/-- `parseExperience` (source lines 611–618): `(\d+)\s*year` and
`(\d+)\s*month` matches, combined as `years + months / 12`. -/
def parseExperience (experienceText : String) : ℚ :=
  if experienceText = "" then 0
  else
    let grab := fun (closing : String) =>
      scanFirst
        (fun l =>
          let ds := l.takeWhile fun c => isDigitChar c
          if ds.isEmpty then none
          else
            let r := (l.drop ds.length).dropWhile fun c => isJsSpace c
            (litCIStr closing r).map fun _ => digitsToNat ds)
        experienceText.toList
    let years := (grab "year").getD 0
    let months := (grab "month").getD 0
    (years : ℚ) + (months : ℚ) / 12

-- ============================================
-- Conversation-history name extraction (source lines 746–765)
-- ============================================

structure Msg where
  role : String
  content : String
deriving DecidableEq, Repr

/-- `[A-Z][a-z]+` with the classes widened to any ASCII letter — the shape
the two `/i`-flagged history patterns degenerate to. -/
def letterWord (l : List Char) : Option (List Char × List Char) :=
  match l with
  | c :: cs =>
    if isAsciiLetter c then
      let more := cs.takeWhile fun d => isAsciiLetter d
      if more.isEmpty then none else some (c :: more, cs.drop more.length)
    else none
  | [] => none

/-- One attempt of
`/\*\*([A-Z][a-z]+\s+[A-Z][a-z]+(?:\s+[A-Z][a-z]+)?)\*\*/`; the optional
third name is greedy, so the three-name parse is tried first. -/
def boldNameAt (l : List Char) : Option (List Char) :=
  match l with
  | '*' :: '*' :: r =>
    (capLowWord r).bind fun (w1, r1) =>
    (wsPlus r1).bind fun (s1, r2) =>
    (capLowWord r2).bind fun (w2, r3) =>
      let withThird : Option (List Char) :=
        (wsPlus r3).bind fun (s2, r4) =>
        (capLowWord r4).bind fun (w3, r5) =>
          match r5 with
          | '*' :: '*' :: _ => some (w1 ++ s1 ++ w2 ++ s2 ++ w3)
          | _ => none
      withThird.orElse fun _ =>
        match r3 with
        | '*' :: '*' :: _ => some (w1 ++ s1 ++ w2)
        | _ => none
  | _ => none

/-- One attempt of `/Email:\s*[\w.-]+@[\w.-]+\.\w+/i` (used as a test). -/
def emailLabelAt (l : List Char) : Option Unit :=
  (litCIStr "email:" l).bind fun r =>
    (emailMatchAt (r.dropWhile fun c => isJsSpace c)).map fun _ => ()

/-- One attempt of `/(?:Candidate|Name):\s*\*\*([A-Z][a-z]+\s+[A-Z][a-z]+)\*\*/i`. -/
def nameBeforeEmailAt (l : List Char) : Option (List Char) :=
  (firstSome [litCIStr "candidate" l, litCIStr "name" l]).bind fun r =>
    match r with
    | ':' :: r1 =>
      (match (r1.dropWhile fun c => isJsSpace c) with
       | '*' :: '*' :: r3 =>
         (letterWord r3).bind fun (w1, r4) =>
         (wsPlus r4).bind fun (s1, r5) =>
         (letterWord r5).bind fun (w2, r6) =>
           match r6 with
           | '*' :: '*' :: _ => some (w1 ++ s1 ++ w2)
           | _ => none
       | _ => none)
    | _ => none

def historyScanMsg (content : String) : Option String :=
  match scanFirst boldNameAt content.toList with
  | some nm => some (String.mk nm)
  | none =>
    if (scanFirst emailLabelAt content.toList).isSome then
      (scanFirst nameBeforeEmailAt content.toList).map String.mk
    else none

def historyScanList : List Msg → Option String
  | [] => none
  | m :: rest =>
    match historyScanMsg m.content with
    | some nm => some nm
    | none => historyScanList rest

/-- `extractNameFromHistory` (source lines 746–765): scan the last three
assistant turns, in order, for a bold name or a `Candidate/Name: **…**`
label next to an email line. -/
def extractNameFromHistory (conversationHistory : List Msg) : Option String :=
  let assistants := conversationHistory.filter fun m => m.role = "assistant"
  historyScanList (assistants.drop (assistants.length - 3))

/-- `shouldUseSemanticSearch` (source lines 807–827). -/
def shouldUseSemanticSearch (query : String) : Bool :=
  let lowerQuery := jsToLower query
  ["similar to", "like", "candidates with expertise in", "find someone who",
   "looking for", "good fit for", "experience in", "background in",
   "specializes in", "expert in", "proficient in", "skilled in",
   "who knows", "familiar with"].any fun kw => jsIncludes lowerQuery kw

-- ============================================
-- smartSearch guard regexes (source lines 839, 899, 912)
-- ============================================

/-- All rests after consuming `\s+`, longest consumption first. -/
def wsPlusAlts (l : List Char) : List (List Char) :=
  let m := (l.takeWhile fun c => isJsSpace c).length
  (List.range m).map fun k => l.drop (m - k)

/-- All rests after consuming `\s*`, longest consumption first. -/
def wsStarAlts (l : List Char) : List (List Char) :=
  let m := (l.takeWhile fun c => isJsSpace c).length
  (List.range (m + 1)).map fun k => l.drop (m - k)

/-- `(\d+)?`: the greedy maximal-digits parse, then the skip.  Intermediate
digit splits are omitted: their follower is a digit, which none of the
pattern's continuations (`\s`, `candidates?`, a preposition) accept. -/
def digitsOptAlts (l : List Char) : List (Option Nat × List Char) :=
  let ds := l.takeWhile fun c => isDigitChar c
  if ds.isEmpty then [(none, l)]
  else [(some (digitsToNat ds), l.drop ds.length), (none, l)]

/-- `(?:candidates?)?`: `candidates`, then `candidate`, then skip. -/
def candOptAlts (l : List Char) : List (List Char) :=
  (match litCIStr "candidate" l with
   | some r =>
     (match r with
      | c :: cs => if c.toLower = 's' then [cs, r] else [r]
      | [] => [r])
   | none => []) ++ [l]

/-- One attempt of
`/(?:top|best|show|list|find)\s+(\d+)?\s*(?:candidates?)?\s+(?:of|for|with|in)\s+(.+)/i`,
with full backtracking over the flexible pieces; returns the optional count
and the raw group-2 term (greedy `.+` stops at a newline). -/
def topOfMatchAt (l : List Char) : Option (Option Nat × List Char) :=
  let results : List (Option Nat × List Char) :=
    (["top", "best", "show", "list", "find"].filterMap fun kw => litCIStr kw l).flatMap
      fun r0 =>
    (wsPlusAlts r0).flatMap fun r1 =>
    (digitsOptAlts r1).flatMap fun (d, r2) =>
    (wsStarAlts r2).flatMap fun r3 =>
    (candOptAlts r3).flatMap fun r4 =>
    (wsPlusAlts r4).flatMap fun r5 =>
    (["of", "for", "with", "in"].filterMap fun p => litCIStr p r5).flatMap fun r6 =>
    (wsPlusAlts r6).flatMap fun r7 =>
      let term := r7.takeWhile fun c => c ≠ '\n'
      if term.isEmpty then [] else [(d, term)]
  results.head?

def topOfMatch (query : String) : Option (Option Nat × String) :=
  (scanFirst topOfMatchAt query.toList).map fun (d, t) => (d, String.mk t)

/-- `topCandidatesPattern.test` — `/(?:top|best|highest)\s+\d+\s*(?:candidates?)?/i`.
The trailing optional pieces cannot fail, so the test reduces to keyword,
`\s+`, `\d+`. -/
def topCandidatesTest (s : String) : Bool :=
  (scanFirst
    (fun l => firstSome <| ["top", "best", "highest"].map fun kw =>
      (litCIStr kw l).bind fun r =>
        (wsPlus r).bind fun (_, r1) =>
          if (r1.takeWhile fun c => isDigitChar c).isEmpty then none else some ())
    s.toList).isSome

/-- `allCandidatesPattern.test` —
`/(?:all|every|show)\s+(?:the\s+)?candidates?(?:\s+list)?$/i` (anchored at the
end of the string: JS `$` without `/m` only matches at the very end). -/
def allCandidatesTest (s : String) : Bool :=
  (scanFirst
    (fun l =>
      let finals : List (List Char) :=
        (["all", "every", "show"].filterMap fun kw => litCIStr kw l).flatMap fun r0 =>
        (wsPlusAlts r0).flatMap fun r1 =>
        (((litCIStr "the" r1).map fun rt => wsPlusAlts rt).getD [] ++ [r1]).flatMap fun r2 =>
        ((litCIStr "candidate" r2).map (fun r3 =>
          (match r3 with
           | c :: cs => if c.toLower = 's' then [cs, r3] else [r3]
           | [] => [r3]))).getD [] |>.flatMap fun r4 =>
        ((wsPlusAlts r4).flatMap fun r5 => ((litCIStr "list" r5).map ([·])).getD []) ++ [r4]
      if finals.any (fun r => r.isEmpty) then some () else none)
    s.toList).isSome

-- ============================================
-- Status strategy dictionary (source lines 1144–1161)
-- ============================================

def statusKeywords : List (String × List String) :=
  [("screening", ["screening", "reviewing", "in review"]),
   ("selected", ["selected", "hired", "accepted", "passed", "succeeded"]),
   ("rejected", ["rejected", "declined", "failed", "not selected"]),
   ("interview", ["interview", "interviewing", "scheduled"]),
   ("offered", ["offered", "offer", "offer stage"])]

/-- The `for … in statusKeywords` loop with `break`: first key (in insertion
order) one of whose keywords occurs in the lowercased query. -/
def matchedStatusKey (lowerQuery : String) : Option String :=
  (statusKeywords.find? fun p => p.2.any fun kw => jsIncludes lowerQuery kw).map (·.1)

def capitalizeFirst (s : String) : String :=
  match s.toList with
  | [] => ""
  | c :: cs => String.mk (c.toUpper :: cs)

/-- The status strategy's column/value computation (source lines 1158–1161):
`screening`/`offered` filter the `status` column, the other keys filter
`interview_result`; the value is the capitalised key, matched exactly
(supabase `.eq`). -/
def statusFilterOf (query : String) : Option (String × String) :=
  (matchedStatusKey (jsToLower query)).map fun key =>
    ((if key = "screening" || key = "offered" then "status" else "interview_result"),
     capitalizeFirst key)

-- ============================================
-- smartSearch (source lines 833–1346)
-- ============================================

/-- Supabase `.filter` comparison operators used by the score/salary
strategies (`gte` for a `gt` extractor, `lte` for `lt`). -/
inductive SbOp
  | gte
  | lte
deriving DecidableEq, Repr

/-- The external store, one oracle function per distinct read issued by
`smartSearch`.  A read that errors surfaces as `data = null` in the source and
every consumer treats that exactly like an empty list, so `[]` models both. -/
structure Store where
  /-- scored candidates, score desc, limit 200 (top-of strategy) -/
  topScored200 : List Cand
  /-- scored candidates, score desc, limited (top-N strategy) -/
  topScored : Nat → List Cand
  /-- all candidates, score desc nulls last, limited -/
  allByScore : Nat → List Cand
  /-- `ilike name %x%`, limited -/
  byNameIlike : String → Nat → List Cand
  /-- `eq email x` -/
  byEmail : String → List Cand
  /-- `ilike phone %x%` -/
  byPhoneIlike : String → List Cand
  /-- `eq job_id x` on `hr_jobs` -/
  jobById : String → List Job
  /-- `EmbeddingService.searchSimilarCandidates(query, 10, 0.7)`; a thrown
  error is caught and treated as no data, so `[]` also models the failure -/
  semanticSearch : String → List Cand
  /-- candidates with non-null experience -/
  candExperienceNotNull : List Cand
  /-- score filter, score desc, limited -/
  byScoreFilter : SbOp → Nat → Nat → List Cand
  /-- expected-salary filter, limited -/
  bySalaryFilter : SbOp → Nat → Nat → List Cand
  /-- plain `select * limit 100` (skill, job-title and catch-all strategies
  issue this same query) -/
  sample100 : List Cand
  /-- `hr_jobs` `select * limit 50` -/
  jobsSample50 : List Job
  /-- `eq column value`, limited (status strategy) -/
  byStatusEq : String → String → Nat → List Cand
  /-- `ilike location %x%`, limited -/
  byLocationIlike : String → Nat → List Cand
  /-- clients (active-only flag, limit) -/
  clients : Bool → Nat → List Client
  /-- client contacts, limited -/
  contacts : Nat → List Contact
  /-- jobs (active-only flag, limit) -/
  jobsQuery : Bool → Nat → List Job
  /-- `job_statuses` ordered by `display_order` -/
  statusList : List StatusRow
  /-- `ilike name %phrase%` (no limit) -/
  namePhrase : String → List Cand
  /-- conjunctive per-keyword `ilike name`, limit 10 -/
  nameAnd : List String → Nat → List Cand
  /-- disjunctive per-keyword `ilike name`, limit 10 -/
  nameOr : List String → Nat → List Cand
  /-- `or(skills/experience/resume_text ilike %phrase%)`, limited -/
  broadFields : String → Nat → List Cand

/-- A store in which every read yields no rows — equivalently, a run in which
every read errors, since `smartSearch` cannot distinguish the two. -/
def emptyStore : Store where
  topScored200 := []
  topScored := fun _ => []
  allByScore := fun _ => []
  byNameIlike := fun _ _ => []
  byEmail := fun _ => []
  byPhoneIlike := fun _ => []
  jobById := fun _ => []
  semanticSearch := fun _ => []
  candExperienceNotNull := []
  byScoreFilter := fun _ _ _ => []
  bySalaryFilter := fun _ _ _ => []
  sample100 := []
  jobsSample50 := []
  byStatusEq := fun _ _ _ => []
  byLocationIlike := fun _ _ => []
  clients := fun _ _ => []
  contacts := fun _ => []
  jobsQuery := fun _ _ => []
  statusList := []
  namePhrase := fun _ => []
  nameAnd := fun _ _ => []
  nameOr := fun _ _ => []
  broadFields := fun _ _ => []

/-- The tagged results of `smartSearch`, one constructor per `type` string. -/
inductive SearchResult
  | topCandidatesForSkill (candidates : List Cand) (searchTerm : String) (requestedCount : Nat)
  | topCandidates (candidates : List Cand)
  | allCandidates (candidates : List Cand)
  | candidateFollowup (candidates : List Cand) (contextName : String)
  | candidateFullDetails (candidates : List Cand)
  | jobDetails (jobs : List Job)
  | semanticSearch (candidates : List Cand)
  | candidatesByExperience (candidates : List (Cand × ℚ))
  | candidatesByScore (candidates : List Cand)
  | candidatesBySalary (candidates : List Cand)
  | candidatesBySkill (candidates : List Cand)
  | candidatesByJobTitle (candidates : List Cand)
  | jobsByTitle (jobs : List Job)
  | candidatesByStatus (candidates : List Cand)
  | candidatesByLocation (candidates : List Cand)
  | clientsAndContacts (clients : List Client) (contacts : List Contact) (filter : String)
  | jobs (jobs : List Job)
  | jobStatuses (statuses : List StatusRow)
  | candidatesBroadSearch (candidates : List Cand) (searchTerm : String)
  | candidateByNamePhrase (candidates : List Cand)
  | candidateByNameKeywordsAnd (candidates : List Cand)
  | candidateByNameKeywordsOr (candidates : List Cand)
  | noResults
deriving DecidableEq, Repr

/-- `requestedLimit || 20` (JS: `0`, `null` and `undefined` all give 20). -/
def defaultLimit : Option Nat → Nat
  | some n => if n = 0 then 20 else n
  | none => 20

/-- Client-side filter of the top-of strategy (source lines 855–877). -/
def topOfPred (searchTerm : String) (candidate : Cand) : Bool :=
  let fieldsToCheck := [joinSkills candidate.skills, candidate.experience, candidate.resume_text]
  let searchNormalized := normalizeForSearch searchTerm
  fieldsToCheck.any fun field =>
    let normalized := normalizeForSearch field
    jsIncludes normalized searchNormalized ||
      (jsSplitSpace searchNormalized).all fun word =>
        jsIncludes normalized word || simGT normalized word (7/10)

/-- Strategy: `top X candidates of/for Y` (source lines 838–896). -/
def stratTopOf (q : String) (lim : Nat) (st : Store) : Option SearchResult :=
  match topOfMatch q with
  | some (cnt, searchTermRaw) =>
    let count := cnt.getD lim
    let searchTerm := jsTrim searchTermRaw
    let top := (st.topScored200.filter fun c => topOfPred searchTerm c).take count
    if top.isEmpty then none else some (.topCandidatesForSkill top searchTerm count)
  | none => none

/-- Strategy: `top X candidates` by score (source lines 898–909). -/
def stratTopN (q : String) (lim : Nat) (st : Store) : Option SearchResult :=
  if topCandidatesTest (jsToLower q) && (extractEmail q).isNone &&
      (extractPhone q).isNone && (extractSkill q).isNone then
    let data := st.topScored lim
    if data.isEmpty then none else some (.topCandidates data)
  else none

/-- Strategy: bare `all candidates` (source lines 911–921). -/
def stratAllC (q : String) (lim : Nat) (st : Store) : Option SearchResult :=
  if allCandidatesTest (jsToLower q) && (extractEmail q).isNone &&
      (extractPhone q).isNone && (extractSkill q).isNone then
    let data := st.allByScore lim
    if data.isEmpty then none else some (.allCandidates data)
  else none

def followUpKeywords : List String :=
  ["applied", "date", "when", "status", "interview", "skills", "experience",
   "salary", "their", "his", "her", "what about", "tell me more"]

/-- Strategy: follow-up question resolved from history (source lines 923–944). -/
def stratFollowUp (q : String) (hist : List Msg) (st : Store) : Option SearchResult :=
  let lowerQuery := jsToLower q
  let isFollowUp := (followUpKeywords.any fun kw => jsIncludes lowerQuery kw) &&
    (jsSplitSpace lowerQuery).length < 8 &&
    (extractEmail q).isNone && (extractPhone q).isNone
  if isFollowUp && !hist.isEmpty then
    match extractNameFromHistory hist with
    | some contextName =>
      let data := st.byNameIlike contextName 5
      if data.isEmpty then none else some (.candidateFollowup data contextName)
    | none => none
  else none

/-- Strategy: exact email lookup (source lines 946–954). -/
def stratEmail (q : String) (st : Store) : Option SearchResult :=
  match extractEmail q with
  | some email =>
    let data := st.byEmail email
    if data.isEmpty then none else some (.candidateFullDetails data)
  | none => none

/-- Strategy: partial phone lookup (source lines 956–962). -/
def stratPhone (q : String) (st : Store) : Option SearchResult :=
  match extractPhone q with
  | some phone =>
    let data := st.byPhoneIlike phone
    if data.isEmpty then none else some (.candidateFullDetails data)
  | none => none

/-- Strategy: exact job-id lookup (source lines 964–970). -/
def stratJobId (q : String) (st : Store) : Option SearchResult :=
  match extractJobId q with
  | some jobId =>
    let data := st.jobById jobId
    if data.isEmpty then none else some (.jobDetails data)
  | none => none

/-- Strategy: semantic / vector search (source lines 972–990); a failure of
the collaborator is caught and falls through, like an empty result. -/
def stratSemantic (q : String) (st : Store) : Option SearchResult :=
  if shouldUseSemanticSearch q then
    let data := st.semanticSearch q
    if data.isEmpty then none else some (.semanticSearch data)
  else none

/-- Strategy: experience threshold, computed client-side (source lines 992–999). -/
def stratExperience (q : String) (st : Store) : Option SearchResult :=
  match extractExperience q with
  | some (years, op) =>
    let filtered := ((st.candExperienceNotNull.map fun c =>
        (c, parseExperience c.experience)).filter fun p =>
          if op = .gt then (years : ℚ) < p.2 else p.2 < (years : ℚ)).take 30
    if filtered.isEmpty then none else some (.candidatesByExperience filtered)
  | none => none

/-- Strategy: overall-score threshold (source lines 1001–1007). -/
def stratScore (q : String) (lim : Nat) (st : Store) : Option SearchResult :=
  match extractScore q with
  | some (score, op) =>
    let data := st.byScoreFilter (if op = .gt then .gte else .lte) score lim
    if data.isEmpty then none else some (.candidatesByScore data)
  | none => none

/-- Strategy: expected-salary threshold (source lines 1009–1015). -/
def stratSalary (q : String) (lim : Nat) (st : Store) : Option SearchResult :=
  match extractSalary q with
  | some (amount, op) =>
    let data := st.bySalaryFilter (if op = .gt then .gte else .lte) amount lim
    if data.isEmpty then none else some (.candidatesBySalary data)
  | none => none

/-- Client-side filter of the skill strategy (source lines 1030–1051). -/
def skillPred (skill : String) (candidate : Cand) : Bool :=
  if skillsFalsy candidate.skills then false
  else
    (skillsAsArray candidate.skills).any fun candidateSkill =>
      let normalized := normalizeForSearch candidateSkill
      let searchNormalized := normalizeForSearch skill
      jsIncludes normalized searchNormalized || jsIncludes searchNormalized normalized ||
        simGT normalized searchNormalized (7/10)

/-- Strategy: skill keyword search (source lines 1017–1062). -/
def stratSkill (q : String) (lim : Nat) (st : Store) : Option SearchResult :=
  match extractSkill q with
  | some skill =>
    let limited := (st.sample100.filter fun c => skillPred skill c).take lim
    if limited.isEmpty then none else some (.candidatesBySkill limited)
  | none => none

/-- Candidate-side filter of the job-title strategy (source lines 1076–1100). -/
def titleCandPred (jobTitle : String) (c : Cand) : Bool :=
  let fieldsToCheck := [joinSkills c.skills, c.experience, c.resume_text, c.name]
  let searchNormalized := normalizeForSearch jobTitle
  fieldsToCheck.any fun field =>
    let normalized := normalizeForSearch field
    jsIncludes normalized searchNormalized ||
      (jsSplitSpace searchNormalized).all fun word =>
        jsIncludes normalized word || simGT normalized word (7/10)

/-- Job-side filter of the job-title strategy (source lines 1117–1130). -/
def titleJobPred (jobTitle : String) (j : Job) : Bool :=
  let fieldsToCheck := [j.title, joinSkills j.skills, j.description]
  let searchNormalized := normalizeForSearch jobTitle
  fieldsToCheck.any fun field => jsIncludes (normalizeForSearch field) searchNormalized

/-- Strategy: job-title search, candidates first, then job postings
(source lines 1064–1141). -/
def stratJobTitle (q : String) (lim : Nat) (st : Store) : Option SearchResult :=
  match extractJobTitle q with
  | some jobTitle =>
    let cands := (st.sample100.filter fun c => titleCandPred jobTitle c).take lim
    if !cands.isEmpty then some (.candidatesByJobTitle cands)
    else
      let jobsM := (st.jobsSample50.filter fun j => titleJobPred jobTitle j).take lim
      if jobsM.isEmpty then none else some (.jobsByTitle jobsM)
  | none => none

/-- Strategy: status keyword search (source lines 1143–1164). -/
def stratStatus (q : String) (lim : Nat) (st : Store) : Option SearchResult :=
  match statusFilterOf q with
  | some (column, statusValue) =>
    let data := st.byStatusEq column statusValue lim
    if data.isEmpty then none else some (.candidatesByStatus data)
  | none => none

def locationsList : List String :=
  ["bangalore", "bengaluru", "chennai", "hyderabad", "pune", "mumbai", "delhi", "coimbatore"]

/-- Strategy: location keyword search (source lines 1166–1173). -/
def stratLocation (q : String) (lim : Nat) (st : Store) : Option SearchResult :=
  match locationsList.find? (fun loc => jsIncludes (jsToLower q) loc) with
  | some loc =>
    let data := st.byLocationIlike loc lim
    if data.isEmpty then none else some (.candidatesByLocation data)
  | none => none

/-- Strategy: client/contact search (source lines 1175–1210). -/
def stratClient (q : String) (lim : Nat) (st : Store) : Option SearchResult :=
  let lowerQuery := jsToLower q
  if jsIncludes lowerQuery "client" then
    let wantsActive := jsIncludes lowerQuery "active"
    let wantsAll := jsIncludes lowerQuery "all" || jsIncludes lowerQuery "every"
    let clientLimit := if wantsAll then 100 else lim
    let clientRows := st.clients wantsActive clientLimit
    let contactRows := st.contacts clientLimit
    if clientRows.isEmpty then none
    else some (.clientsAndContacts clientRows contactRows
      (if wantsActive then "active_only" else "all"))
  else none

def jobKeywordsList : List String := ["job", "position", "opening", "vacancy", "role"]

/-- Strategy: job search (source lines 1212–1223). -/
def stratJobs (q : String) (lim : Nat) (st : Store) : Option SearchResult :=
  let lowerQuery := jsToLower q
  if jobKeywordsList.any fun kw => jsIncludes lowerQuery kw then
    let active := jsIncludes lowerQuery "active" || jsIncludes lowerQuery "open"
    let data := st.jobsQuery active lim
    if data.isEmpty then none else some (.jobs data)
  else none

/-- Strategy: status-catalog listing (source lines 1225–1230). -/
def stratStatusTypes (q : String) (st : Store) : Option SearchResult :=
  let lowerQuery := jsToLower q
  if jsIncludes lowerQuery "status" && (jsIncludes lowerQuery "type" ||
      jsIncludes lowerQuery "list" || jsIncludes lowerQuery "available") then
    if st.statusList.isEmpty then none else some (.jobStatuses st.statusList)
  else none

def catchAllStopWords : List String := ["the", "show", "find", "list", "give", "get", "me", "all"]

/-- The residual search term of the catch-all strategy (source lines 1235–1238). -/
def searchTermsOf (lowerQuery : String) : String :=
  String.intercalate " "
    ((jsSplitSpace lowerQuery).filter fun w => w.length > 2 && !catchAllStopWords.contains w)

/-- Client-side filter of the catch-all strategy (source lines 1249–1276).
The JS `matchedWords.length >= searchWords.length * 0.7` runs in binary
floating point; it is modelled exactly over `ℚ`. -/
def catchAllPred (searchTerms : String) (c : Cand) : Bool :=
  let fieldsToCheck := [joinSkills c.skills, c.experience, c.resume_text]
  let searchNormalized := normalizeForSearch searchTerms
  fieldsToCheck.any fun field =>
    let normalized := normalizeForSearch field
    if jsIncludes normalized searchNormalized then true
    else
      let searchWords := jsSplitSpace searchNormalized
      let matchedWords := searchWords.filter fun word =>
        jsIncludes normalized word ||
          (jsSplitSpace normalized).any fun fw => simGT fw word (3/4)
      ((searchWords.length : ℚ) * (7/10)) ≤ (matchedWords.length : ℚ)

/-- JS `(c.overall_score || 0)`. -/
def scoreD (c : Cand) : Nat := c.overall_score.getD 0

/-- Strategy: catch-all skill/role search (source lines 1232–1293). -/
def stratCatchAll (q : String) (lim : Nat) (st : Store) : Option SearchResult :=
  let searchTerms := searchTermsOf (jsToLower q)
  if searchTerms.length > 3 then
    let sorted := (stableSortBy (fun a b => scoreD b ≤ scoreD a)
      (st.sample100.filter fun c => catchAllPred searchTerms c)).take lim
    if sorted.isEmpty then none else some (.candidatesBroadSearch sorted searchTerms)
  else none

def nameStopWords : List String :=
  ["can", "get", "give", "details", "of", "about", "show", "find", "the",
   "list", "all", "are", "who", "hi", "applied", "date", "when", "top", "best"]

/-- Strategy: comprehensive name-search fallback (source lines 1295–1339). -/
def stratName (q : String) (lim : Nat) (st : Store) : Option SearchResult :=
  let lowerQuery := jsToLower q
  let potentialName := jsTrim (String.intercalate " "
    ((jsSplitSpace lowerQuery).filter fun w => !nameStopWords.contains w && w.length ≥ 2))
  if potentialName ≠ "" then
    let d1 := st.namePhrase potentialName
    if !d1.isEmpty then some (.candidateByNamePhrase d1)
    else
      let keywords := jsSplitSpace potentialName
      let d2 := st.nameAnd keywords 10
      if !d2.isEmpty then some (.candidateByNameKeywordsAnd d2)
      else
        let d3 := st.nameOr keywords 10
        if !d3.isEmpty then some (.candidateByNameKeywordsOr d3)
        else
          let d4 := st.broadFields potentialName lim
          if d4.isEmpty then none else some (.candidatesBroadSearch d4 potentialName)
  else none

/-- Labels for the strategies, in source order. -/
inductive Label
  | topOf
  | topN
  | allC
  | followUp
  | email
  | phone
  | jobId
  | semantic
  | experience
  | score
  | salary
  | skill
  | jobTitle
  | status
  | location
  | client
  | jobsKw
  | statusTypes
  | catchAll
  | nameSearch
deriving DecidableEq, Repr

/-- The ordered strategy list of `smartSearch`, labelled. -/
def strategies (q : String) (hist : List Msg) (lim : Nat) :
    List (Label × (Store → Option SearchResult)) :=
  [(.topOf, stratTopOf q lim),
   (.topN, stratTopN q lim),
   (.allC, stratAllC q lim),
   (.followUp, stratFollowUp q hist),
   (.email, stratEmail q),
   (.phone, stratPhone q),
   (.jobId, stratJobId q),
   (.semantic, stratSemantic q),
   (.experience, stratExperience q),
   (.score, stratScore q lim),
   (.salary, stratSalary q lim),
   (.skill, stratSkill q lim),
   (.jobTitle, stratJobTitle q lim),
   (.status, stratStatus q lim),
   (.location, stratLocation q lim),
   (.client, stratClient q lim),
   (.jobsKw, stratJobs q lim),
   (.statusTypes, stratStatusTypes q),
   (.catchAll, stratCatchAll q lim),
   (.nameSearch, stratName q lim)]

def labelOrder : List Label :=
  [.topOf, .topN, .allC, .followUp, .email, .phone, .jobId, .semantic,
   .experience, .score, .salary, .skill, .jobTitle, .status, .location,
   .client, .jobsKw, .statusTypes, .catchAll, .nameSearch]

/-- Run the strategies in order until one returns a result, recording which
strategies were reached (the early-return `if`/`return` chain of the source);
if none succeeds, the `no_results` marker is returned. -/
def runStrats : List (Label × (Store → Option SearchResult)) → Store →
    List Label × SearchResult
  | [], _ => ([], .noResults)
  | (l, s) :: rest, st =>
    match s st with
    | some r => ([l], r)
    | none =>
      let p := runStrats rest st
      (l :: p.1, p.2)

/-- `smartSearch` (source lines 833–1346), instrumented with the list of
strategies evaluated.  The result component is the source's return value. -/
def smartSearchRun (query : String) (conversationHistory : List Msg)
    (requestedLimit : Option Nat) (st : Store) : List Label × SearchResult :=
  runStrats (strategies query conversationHistory (defaultLimit requestedLimit)) st

/-- The return value of `smartSearch`. -/
def smartSearch (query : String) (conversationHistory : List Msg)
    (requestedLimit : Option Nat) (st : Store) : SearchResult :=
  (smartSearchRun query conversationHistory requestedLimit st).2

-- ============================================
-- sendMessage (source lines 1622–1786)
-- ============================================

/-- The chat surface's reply: plain text, or text with suggested follow-ups
(the `ChatResponse` union of the source). -/
inductive ChatResp
  | plain (s : String)
  | withSuggestions (text : String) (suggestions : List String)
deriving DecidableEq, Repr

instance : DecidableEq (Except String ChatResp)
  | .ok a, .ok b =>
    if h : a = b then .isTrue (by rw [h]) else .isFalse fun hh => h (by cases hh; rfl)
  | .error a, .error b =>
    if h : a = b then .isTrue (by rw [h]) else .isFalse fun hh => h (by cases hh; rfl)
  | .ok _, .error _ => .isFalse fun hh => by cases hh
  | .error _, .ok _ => .isFalse fun hh => by cases hh

/-- The aggregate statistics returned by `getStats` (an external read). -/
structure Stats where
  totalJobs : Nat
  totalCandidates : Nat
  totalClients : Nat
  totalContacts : Nat
  totalStatuses : Nat
  averageCandidateScore : String
  screening : Nat
  selected : Nat
  rejected : Nat
deriving DecidableEq, Repr

/-- An apostrophe (kept out of string literals). -/
def apos : String := String.singleton (Char.ofNat 39)

/-- The in-process response cache: `Map<string, {response, timestamp}>`,
keyed by the normalised message. -/
abbrev Cache : Type := List (String × String × Nat)

def cacheGet (c : Cache) (k : String) : Option (String × Nat) :=
  match c.find? (fun p => p.1 = k) with
  | some p => some p.2
  | none => none

/-- `Map.set`: replace any previous entry under the key (lookups only ever
see the newest entry, as in a JS `Map`). -/
def cacheSet (c : Cache) (k : String) (v : String × Nat) : Cache :=
  (k, v) :: c.filter fun p => ¬ p.1 = k

/-- `CACHE_TTL = 5 * 60 * 1000` (source line 488). -/
def CACHE_TTL : Nat := 5 * 60 * 1000

/-- One call's external world: the store, the stats read, the random draw of
the greeting branch, and the outcome of each external-API interaction.  The
JD-matching and similar-candidates sub-pipelines are abstracted into their
outcome (they never touch the response cache); `analyticsGen`/`genOutcome`
are `none` when the completion endpoint answers non-ok. -/
structure Env where
  stats : Stats
  /-- `Math.floor(Math.random() * 3)` of the greeting branch, as a draw mod 3 -/
  rand : Nat
  /-- reply text of `getRankedCandidatesFromJD` -/
  jdText : String
  /-- generation-API calls made by `getRankedCandidatesFromJD` (0–2) -/
  jdGenCalls : Nat
  /-- whether the analytics RPC reads succeed (a throw skips the API call) -/
  analyticsRpcOk : Bool
  /-- generated analytics report, `none` = non-ok completion response -/
  analyticsGen : Option String
  /-- error message of a failed analytics RPC -/
  analyticsRpcErr : String
  /-- reply of the similar-candidates branch when its whole sub-pipeline
  succeeds (it uses no generation-API call); `none` = fall through -/
  similarOutcome : Option String
  store : Store
  /-- the main completion call's answer; `none` = non-ok response (thrown) -/
  genOutcome : Option String
  /-- `Date.now()` during this call -/
  now : Nat

/-- The three canned greeting replies (source lines 1645–1649). -/
def greetingResponses (stats : Stats) : List String :=
  ["Hello! 👋 I" ++ apos ++ "m your AI recruitment assistant. I have access to " ++
     toString stats.totalCandidates ++ " candidates and " ++ toString stats.totalJobs ++
     " jobs. How can I help you today?",
   "Hi there! 👋 Ready to help you with recruitment tasks. We have " ++
     toString stats.totalCandidates ++
     " candidates in the database. What would you like to know?",
   "Hey! 👋 I" ++ apos ++
     "m here to assist with your recruitment needs. Ask me about candidates, jobs, clients, or analytics!"]

/-- The clarification reply of the `unclear` branch (source lines 1654–1669). -/
def unclearResponse (message : String) : ChatResp :=
  let searchTerm := jsTrim message
  let displayTerm := capitalizeFirst searchTerm
  .withSuggestions
    ("I" ++ apos ++ "d be happy to help! Could you please clarify what you" ++ apos ++
      "re looking for regarding \"" ++ displayTerm ++ "\"? For example, are you interested in:")
    ["Candidates with specific skills or experience in " ++ displayTerm,
     "Job openings related to " ++ displayTerm,
     "Analytics or reports on " ++ displayTerm ++ " positions"]

/-- The JD detector (source lines 1672–1676).  `message.length` is the JS
UTF-16 length; the inputs handled here are ASCII, where it coincides with the
codepoint length. -/
def isJD (message : String) : Bool :=
  let lowerMessage := jsTrim (jsToLower message)
  message.length > 250 &&
    (jsIncludes lowerMessage "responsibilities" || jsIncludes lowerMessage "requirements" ||
      (jsIncludes lowerMessage "skills" && jsIncludes lowerMessage "experience"))

/-- The analytics detector (source lines 1684–1687). -/
def isAnalyticsQuery (lowerMessage : String) : Bool :=
  jsIncludes lowerMessage "report" || jsIncludes lowerMessage "analytics" ||
    jsIncludes lowerMessage "distribution" || jsIncludes lowerMessage "pipeline overview"

/-- The similar-candidates trigger (source line 1695). -/
def similarTrigger (lowerMessage : String) : Bool :=
  jsIncludes lowerMessage "similar candidates to" || jsIncludes lowerMessage "candidates like"

/-- `getAnalyticsReport` (source lines 1448–1484), reduced to its externally
visible shape: on RPC success exactly one generation-API call is made and its
text (or the fixed failure wrapper) is returned; an RPC throw reaches the
catch block before any generation call. -/
def analyticsReport (env : Env) : String × Nat :=
  if env.analyticsRpcOk then
    match env.analyticsGen with
    | some text => (text, 1)
    | none =>
      ("Error generating report: Report generation failed. You may need to create SQL functions in Supabase.", 1)
  else
    ("Error generating report: " ++ env.analyticsRpcErr ++
      ". You may need to create SQL functions in Supabase.", 0)

/-- `sendMessage` (source lines 1622–1786), as a function of the message, the
caller-supplied history, the cache state and the call's environment.  Returns
the reply (or the propagated error), the cache after the call, and the number
of generation-API (OpenAI completion) invocations the call performed. -/
def sendMessage (env : Env) (message : String) (conversationHistory : List Msg)
    (cache : Cache) : (Except String ChatResp) × Cache × Nat :=
  let lowerMessage := jsTrim (jsToLower message)
  let classification := classifyQuery message
  let requestedCount := extractRequestedCount message
  if classification.type = .greeting then
    (.ok (.plain ((greetingResponses env.stats).getD (env.rand % 3) "")), cache, 0)
  else if classification.type = .unclear then
    (.ok (unclearResponse message), cache, 0)
  else if isJD message then
    (.ok (.plain env.jdText), cache, env.jdGenCalls)
  else if isAnalyticsQuery lowerMessage then
    let p := analyticsReport env
    (.ok (.plain p.1), cache, p.2)
  else if similarTrigger lowerMessage && env.similarOutcome.isSome then
    (.ok (.plain (env.similarOutcome.getD "")), cache, 0)
  else
    let cachedHit : Option String :=
      if classification.type = .recruitment then
        match cacheGet cache lowerMessage with
        | some (resp, ts) =>
          if env.now - ts < CACHE_TTL && conversationHistory.isEmpty then some resp
          else none
        | none => none
      else none
    match cachedHit with
    | some resp => (.ok (.plain resp), cache, 0)
    | none =>
      let _searchResults :=
        if classification.type = .recruitment then
          some (smartSearch message conversationHistory requestedCount env.store)
        else none
      match env.genOutcome with
      | none => (.error "OpenAI", cache, 1)
      | some answer =>
        let cache' :=
          if classification.type = .recruitment && conversationHistory.isEmpty then
            cacheSet cache lowerMessage (answer, env.now)
          else cache
        (.ok (.plain answer), cache', 1)

-- ============================================
-- Claim-side predicates and concrete instances
-- ============================================

/-- Claim-side reading of the `extractSalary` trigger: the query contains a
digit run, then optional whitespace, then a letter `l`/`L` (the exact shape
`/(\d+)\s*(l|lakh|lpa)/i` accepts), the run having numeric value `n`. -/
def SalaryOcc (q : String) (n : Nat) : Prop :=
  ∃ pre ds ws tl, q.toList = pre ++ ds ++ ws ++ tl ∧ ds ≠ [] ∧
    (∀ c ∈ ds, isDigitChar c = true) ∧ (∀ c ∈ ws, isJsSpace c = true) ∧
    (∃ c tl2, tl = c :: tl2 ∧ (c = 'l' ∨ c = 'L')) ∧ n = digitsToNat ds

/-- A candidate row used to instantiate store oracles in witnesses. -/
def wCand : Cand :=
  { name := "Jane", email := "john@x.com", phone := "", status := "",
    interview_result := "", location := "", skills := none, experience := "",
    resume_text := "", overall_score := none, expected_salary := none }

/-- A store whose email lookup finds `wCand` and whose other reads are empty. -/
def wStore : Store := { emptyStore with byEmail := fun _ => [wCand] }

def wStats : Stats :=
  { totalJobs := 0, totalCandidates := 0, totalClients := 0, totalContacts := 0,
    totalStatuses := 0, averageCandidateScore := "0", screening := 0,
    selected := 0, rejected := 0 }

/-- First call's environment for the cache-idempotence witness. -/
def idemEnv1 : Env :=
  { stats := wStats, rand := 0, jdText := "", jdGenCalls := 0,
    analyticsRpcOk := true, analyticsGen := none, analyticsRpcErr := "",
    similarOutcome := none, store := emptyStore, genOutcome := some "A", now := 0 }

/-- Second call's environment: one millisecond later, and a generation oracle
that would answer differently — the cache must prevent it from being asked. -/
def idemEnv2 : Env := { idemEnv1 with genOutcome := some "B", now := 1 }

/-- First call's environment for the analytics counterexample: the analytics
RPCs succeed and the report generation call answers `"A"`. -/
def cexEnv1 : Env :=
  { stats := wStats, rand := 0, jdText := "", jdGenCalls := 0,
    analyticsRpcOk := true, analyticsGen := some "A", analyticsRpcErr := "",
    similarOutcome := none, store := emptyStore, genOutcome := some "Z", now := 0 }

/-- Second call's environment, one millisecond later (well within the TTL). -/
def cexEnv2 : Env := { cexEnv1 with now := 1 }

end ChatService

namespace ChatService

/-- C6: `calculateSimilarity(s, s) = 1.0` for every string, and
`calculateSimilarity("", "")` is defined (hits the `s1 === s2` branch,
so no division — in particular no `0/0` — is performed). -/
theorem calculateSimilarity_refl :
    (∀ s : String, calculateSimilarity s s = some 1) ∧
      calculateSimilarity "" "" = some 1 := by
  constructor
  · intro s
    simp [calculateSimilarity]
  · simp [calculateSimilarity]

/-- C9: `calculateSimilarity` is symmetric in its two arguments: every branch
(equality, mutual containment, character-set Jaccard ratio) is symmetric. -/
theorem calculateSimilarity_comm :
    ∀ a b : String, calculateSimilarity a b = calculateSimilarity b a := by
  intro a b
  unfold calculateSimilarity
  by_cases h1 : normalizeForSearch a = normalizeForSearch b
  · simp [h1]
  · have h1' : ¬ normalizeForSearch b = normalizeForSearch a := fun h => h1 h.symm
    simp only [h1, h1', if_false]
    by_cases h2 : (jsIncludes (normalizeForSearch a) (normalizeForSearch b) ||
        jsIncludes (normalizeForSearch b) (normalizeForSearch a)) = true
    · have h2' : (jsIncludes (normalizeForSearch b) (normalizeForSearch a) ||
          jsIncludes (normalizeForSearch a) (normalizeForSearch b)) = true := by
        rw [Bool.or_comm] at h2; exact h2
      simp [h2, h2']
    · have h2' : ¬ (jsIncludes (normalizeForSearch b) (normalizeForSearch a) ||
          jsIncludes (normalizeForSearch a) (normalizeForSearch b)) = true := by
        rw [Bool.or_comm] at h2; exact h2
      simp only [h2, h2', if_false]
      rw [Finset.inter_comm, Finset.union_comm]

/-- C1 (counterexample): the classifier does not label `"what's the weather"`
as `off_topic` — the query is three words long and carries no recruitment
keyword, so the short-and-vague branch fires first. -/
theorem classifyQuery_weather_cex :
    ¬ (classifyQuery ("what" ++ apos ++ "s the weather")).type = QType.off_topic := by
  decide

/-- C1 (amended): `classifyQuery "hello"` is a greeting, `"show me candidates
with Python skills"` is recruitment, and both `"what's the weather"` and
`"ok"` — being at most three words without a recruitment keyword — are
`unclear`. -/
theorem classifyQuery_examples :
    (classifyQuery "hello").type = QType.greeting ∧
    (classifyQuery "show me candidates with Python skills").type = QType.recruitment ∧
    (classifyQuery ("what" ++ apos ++ "s the weather")).type = QType.unclear ∧
    (classifyQuery "ok").type = QType.unclear := by
  decide

/-- C4: the status strategy maps `"who's in screening"` to an exact-match
filter on column `status` with value `"Screening"`, and `"selected
candidates"` to an exact-match filter on column `interview_result` with value
`"Selected"` — for every store and limit, the strategy's read is
`byStatusEq` (supabase `.eq`) at exactly those column/value pairs. -/
theorem stratStatus_mappings :
    (∀ (st : Store) (lim : Nat),
      stratStatus ("who" ++ apos ++ "s in screening") lim st =
        (if (st.byStatusEq "status" "Screening" lim).isEmpty then none
         else some (.candidatesByStatus (st.byStatusEq "status" "Screening" lim)))) ∧
    (∀ (st : Store) (lim : Nat),
      stratStatus "selected candidates" lim st =
        (if (st.byStatusEq "interview_result" "Selected" lim).isEmpty then none
         else some (.candidatesByStatus (st.byStatusEq "interview_result" "Selected" lim)))) := by
  constructor
  · intro st lim
    have h : statusFilterOf ("who" ++ apos ++ "s in screening") =
        some ("status", "Screening") := by decide
    simp [stratStatus, h]
  · intro st lim
    have h : statusFilterOf "selected candidates" =
        some ("interview_result", "Selected") := by decide
    simp [stratStatus, h]

theorem tryCountRange_range {o : Option Nat} {n : Nat}
    (h : tryCountRange o = some n) : 1 ≤ n ∧ n ≤ 100 := by
  cases o with
  | none => simp [tryCountRange] at h
  | some c =>
    simp only [tryCountRange, Option.some_bind] at h
    split at h
    · next hc => cases h; simpa using hc
    · cases h

/-- C5: `extractRequestedCount` only ever returns a value in `[1, 100]` (each
pattern's hit is gated by the range check before it may return), and
`"top 500"` — whose only numeric hit is out of range — yields no count. -/
theorem extractRequestedCount_range :
    (∀ (q : String) (n : Nat), extractRequestedCount q = some n → 1 ≤ n ∧ n ≤ 100) ∧
      extractRequestedCount "top 500" = none := by
  constructor
  · intro q n h
    unfold extractRequestedCount at h
    rcases ho : tryCountRange (scanFirst countMatchAt1 q.toList) with _ | m
    · rw [ho] at h
      simp only [Option.orElse] at h
      exact tryCountRange_range h
    · rw [ho] at h
      simp only [Option.orElse] at h
      cases h
      exact tryCountRange_range ho
  · decide

/-- C5 witness: `"top 10"` returns a count, and it lies in `[1, 100]`. -/
theorem extractRequestedCount_range_witness : 1 ≤ 10 ∧ 10 ≤ 100 :=
  extractRequestedCount_range.1 "top 10" 10 (by decide)

-- Generic facts about the strategy runner.

theorem runStrats_all_none :
    ∀ (L : List (Label × (Store → Option SearchResult))) (st : Store),
      (∀ p ∈ L, p.2 st = none) → (runStrats L st).2 = .noResults := by
  intro L st h
  induction L with
  | nil => rfl
  | cons p rest ih =>
    obtain ⟨l, s⟩ := p
    have hp : s st = none := h (l, s) (List.mem_cons_self _ _)
    simp only [runStrats, hp]
    exact ih fun x hx => h x (List.mem_cons_of_mem _ hx)

theorem runStrats_stop_mem {l₀ : Label} {s₀ : Store → Option SearchResult}
    {st : Store} {r : SearchResult} (h : s₀ st = some r) :
    ∀ (L₁ L₂ : List (Label × (Store → Option SearchResult))),
      ∀ x ∈ (runStrats (L₁ ++ (l₀, s₀) :: L₂) st).1, x ∈ L₁.map Prod.fst ++ [l₀] := by
  intro L₁
  induction L₁ with
  | nil =>
    intro L₂ x hx
    simp only [List.nil_append, runStrats, h] at hx
    simpa using hx
  | cons p rest ih =>
    intro L₂ x hx
    obtain ⟨l, s⟩ := p
    rw [List.cons_append] at hx
    cases hs : s st with
    | none =>
      simp only [runStrats, hs] at hx
      simp only [List.map_cons, List.cons_append]
      rcases (by simpa using hx : x = l ∨ x ∈ (runStrats (rest ++ (l₀, s₀) :: L₂) st).1)
        with rfl | hx'
      · exact List.mem_cons_self _ _
      · exact List.mem_cons_of_mem _ (ih L₂ x hx')
    | some r' =>
      simp only [runStrats, hs] at hx
      simp only [List.map_cons, List.cons_append]
      rcases (by simpa using hx : x = l) with rfl
      exact List.mem_cons_self _ _

theorem runStrats_reached_result {l₀ : Label} {s₀ : Store → Option SearchResult}
    {st : Store} {r : SearchResult} (h : s₀ st = some r) :
    ∀ (L₁ L₂ : List (Label × (Store → Option SearchResult))),
      l₀ ∉ L₁.map Prod.fst →
      l₀ ∈ (runStrats (L₁ ++ (l₀, s₀) :: L₂) st).1 →
      (runStrats (L₁ ++ (l₀, s₀) :: L₂) st).2 = r := by
  intro L₁
  induction L₁ with
  | nil =>
    intro L₂ _ _
    simp [runStrats, h]
  | cons p rest ih =>
    intro L₂ hn hm
    obtain ⟨l, s⟩ := p
    rw [List.cons_append] at hm ⊢
    cases hs : s st with
    | none =>
      simp only [runStrats, hs] at hm ⊢
      have hl : ¬ l₀ = l := by
        intro hyp
        exact hn (by simp [hyp])
      have hm' : l₀ ∈ (runStrats (rest ++ (l₀, s₀) :: L₂) st).1 := by
        rcases (by simpa using hm :
            l₀ = l ∨ l₀ ∈ (runStrats (rest ++ (l₀, s₀) :: L₂) st).1) with hyp | hyp
        · exact absurd hyp hl
        · exact hyp
      exact ih L₂ (fun hyp => hn (List.mem_cons_of_mem _ hyp)) hm'
    | some r' =>
      simp only [runStrats, hs] at hm
      have hyp : l₀ = l := by simpa using hm
      exact absurd hyp fun hyp2 => hn (by simp [hyp2])

theorem runStrats_trace_take :
    ∀ (L : List (Label × (Store → Option SearchResult))) (st : Store),
      ∃ k, (runStrats L st).1 = (L.map Prod.fst).take k := by
  intro L st
  induction L with
  | nil => exact ⟨0, rfl⟩
  | cons p rest ih =>
    obtain ⟨l, s⟩ := p
    cases hs : s st with
    | none =>
      obtain ⟨k, hk⟩ := ih
      exact ⟨k + 1, by simp [runStrats, hs, hk]⟩
    | some r => exact ⟨1, by simp [runStrats, hs]⟩

theorem labelOrder_email_before_skill :
    ∀ k, Label.skill ∈ labelOrder.take k → Label.email ∈ labelOrder.take k := by
  intro k
  match k with
  | 0 | 1 | 2 | 3 | 4 | 5 | 6 | 7 | 8 | 9 | 10 | 11 => decide
  | j + 12 =>
    intro _
    rw [show j + 12 = 12 + j from by omega, List.take_add]
    exact List.mem_append_left _ (by decide)

/-- C2: in `smartSearch`, on a query carrying both an email and a skill
keyword, whenever the store's exact-email lookup has rows: the skill strategy
is never evaluated; if the email strategy is reached, the returned result is
the email strategy's `candidate_full_details` over exactly the email lookup's
rows; and (for every store) the skill strategy only ever runs after the email
strategy — priority 5 precedes priority 8. -/
theorem smartSearch_email_before_skill :
    ∀ (q : String) (hist : List Msg) (reqLim : Option Nat) (st : Store) (e sk : String),
      extractEmail q = some e →
      extractSkill q = some sk →
      (st.byEmail e).isEmpty = false →
      Label.skill ∉ (smartSearchRun q hist reqLim st).1 ∧
      (Label.email ∈ (smartSearchRun q hist reqLim st).1 →
        (smartSearchRun q hist reqLim st).2 = .candidateFullDetails (st.byEmail e)) ∧
      (∀ st' : Store, Label.skill ∈ (smartSearchRun q hist reqLim st').1 →
        Label.email ∈ (smartSearchRun q hist reqLim st').1) := by
  intro q hist reqLim st e sk he _hsk hne
  have hstrat : stratEmail q st = some (.candidateFullDetails (st.byEmail e)) := by
    simp [stratEmail, he, hne]
  refine ⟨?_, ?_, ?_⟩
  · intro hmem
    have hmem' : Label.skill ∈ (runStrats
        ([(Label.topOf, stratTopOf q (defaultLimit reqLim)),
          (.topN, stratTopN q (defaultLimit reqLim)),
          (.allC, stratAllC q (defaultLimit reqLim)),
          (.followUp, stratFollowUp q hist)] ++
         (Label.email, stratEmail q) ::
         [(.phone, stratPhone q), (.jobId, stratJobId q), (.semantic, stratSemantic q),
          (.experience, stratExperience q), (.score, stratScore q (defaultLimit reqLim)),
          (.salary, stratSalary q (defaultLimit reqLim)),
          (.skill, stratSkill q (defaultLimit reqLim)),
          (.jobTitle, stratJobTitle q (defaultLimit reqLim)),
          (.status, stratStatus q (defaultLimit reqLim)),
          (.location, stratLocation q (defaultLimit reqLim)),
          (.client, stratClient q (defaultLimit reqLim)),
          (.jobsKw, stratJobs q (defaultLimit reqLim)),
          (.statusTypes, stratStatusTypes q),
          (.catchAll, stratCatchAll q (defaultLimit reqLim)),
          (.nameSearch, stratName q (defaultLimit reqLim))]) st).1 := hmem
    have hx := runStrats_stop_mem hstrat _ _ Label.skill hmem'
    simp at hx
  · intro hm
    have hm' : Label.email ∈ (runStrats
        ([(Label.topOf, stratTopOf q (defaultLimit reqLim)),
          (.topN, stratTopN q (defaultLimit reqLim)),
          (.allC, stratAllC q (defaultLimit reqLim)),
          (.followUp, stratFollowUp q hist)] ++
         (Label.email, stratEmail q) ::
         [(.phone, stratPhone q), (.jobId, stratJobId q), (.semantic, stratSemantic q),
          (.experience, stratExperience q), (.score, stratScore q (defaultLimit reqLim)),
          (.salary, stratSalary q (defaultLimit reqLim)),
          (.skill, stratSkill q (defaultLimit reqLim)),
          (.jobTitle, stratJobTitle q (defaultLimit reqLim)),
          (.status, stratStatus q (defaultLimit reqLim)),
          (.location, stratLocation q (defaultLimit reqLim)),
          (.client, stratClient q (defaultLimit reqLim)),
          (.jobsKw, stratJobs q (defaultLimit reqLim)),
          (.statusTypes, stratStatusTypes q),
          (.catchAll, stratCatchAll q (defaultLimit reqLim)),
          (.nameSearch, stratName q (defaultLimit reqLim))]) st).1 := hm
    exact runStrats_reached_result hstrat _ _ (by simp) hm'
  · intro st' hsk'
    obtain ⟨k, hk⟩ := runStrats_trace_take (strategies q hist (defaultLimit reqLim)) st'
    have hlab : (strategies q hist (defaultLimit reqLim)).map Prod.fst = labelOrder := rfl
    rw [hlab] at hk
    have hsk'' : Label.skill ∈ (runStrats (strategies q hist (defaultLimit reqLim)) st').1 :=
      hsk'
    rw [hk] at hsk''
    show Label.email ∈ (runStrats (strategies q hist (defaultLimit reqLim)) st').1
    rw [hk]
    exact labelOrder_email_before_skill k hsk''

/-- C2 witness: `"python john@x.com"` carries the skill `python` and the
email `john@x.com`; against a store whose email lookup finds a row, the
skill strategy is never evaluated. -/
theorem smartSearch_email_before_skill_witness :
    Label.skill ∉ (smartSearchRun "python john@x.com" [] none wStore).1 :=
  (smartSearch_email_before_skill "python john@x.com" [] none wStore "john@x.com" "python"
    (by decide) (by decide) (by decide)).1

-- Every strategy yields nothing against the all-empty (all-erroring) store.

theorem stratTopOf_empty (q : String) (lim : Nat) : stratTopOf q lim emptyStore = none := by
  unfold stratTopOf
  cases topOfMatch q <;> simp [emptyStore]

theorem stratTopN_empty (q : String) (lim : Nat) : stratTopN q lim emptyStore = none := by
  unfold stratTopN
  split <;> simp [emptyStore]

theorem stratAllC_empty (q : String) (lim : Nat) : stratAllC q lim emptyStore = none := by
  unfold stratAllC
  split <;> simp [emptyStore]

theorem stratFollowUp_empty (q : String) (hist : List Msg) :
    stratFollowUp q hist emptyStore = none := by
  unfold stratFollowUp
  cases h : extractNameFromHistory hist <;> simp [emptyStore, h]

theorem stratEmail_empty (q : String) : stratEmail q emptyStore = none := by
  unfold stratEmail
  cases extractEmail q <;> simp [emptyStore]

theorem stratPhone_empty (q : String) : stratPhone q emptyStore = none := by
  unfold stratPhone
  cases extractPhone q <;> simp [emptyStore]

theorem stratJobId_empty (q : String) : stratJobId q emptyStore = none := by
  unfold stratJobId
  cases extractJobId q <;> simp [emptyStore]

theorem stratSemantic_empty (q : String) : stratSemantic q emptyStore = none := by
  unfold stratSemantic
  split <;> simp [emptyStore]

theorem stratExperience_empty (q : String) : stratExperience q emptyStore = none := by
  unfold stratExperience
  cases extractExperience q with
  | none => rfl
  | some p => simp [emptyStore]

theorem stratScore_empty (q : String) (lim : Nat) : stratScore q lim emptyStore = none := by
  unfold stratScore
  cases extractScore q with
  | none => rfl
  | some p => simp [emptyStore]

theorem stratSalary_empty (q : String) (lim : Nat) : stratSalary q lim emptyStore = none := by
  unfold stratSalary
  cases extractSalary q with
  | none => rfl
  | some p => simp [emptyStore]

theorem stratSkill_empty (q : String) (lim : Nat) : stratSkill q lim emptyStore = none := by
  unfold stratSkill
  cases extractSkill q <;> simp [emptyStore]

theorem stratJobTitle_empty (q : String) (lim : Nat) :
    stratJobTitle q lim emptyStore = none := by
  unfold stratJobTitle
  cases extractJobTitle q <;> simp [emptyStore]

theorem stratStatus_empty (q : String) (lim : Nat) : stratStatus q lim emptyStore = none := by
  unfold stratStatus
  cases statusFilterOf q with
  | none => rfl
  | some p => simp [emptyStore]

theorem stratLocation_empty (q : String) (lim : Nat) :
    stratLocation q lim emptyStore = none := by
  unfold stratLocation
  cases locationsList.find? (fun loc => jsIncludes (jsToLower q) loc) <;> simp [emptyStore]

theorem stratClient_empty (q : String) (lim : Nat) : stratClient q lim emptyStore = none := by
  simp [stratClient, emptyStore]

theorem stratJobs_empty (q : String) (lim : Nat) : stratJobs q lim emptyStore = none := by
  simp [stratJobs, emptyStore]

theorem stratStatusTypes_empty (q : String) : stratStatusTypes q emptyStore = none := by
  simp [stratStatusTypes, emptyStore]

theorem stratCatchAll_empty (q : String) (lim : Nat) :
    stratCatchAll q lim emptyStore = none := by
  simp [stratCatchAll, emptyStore, stableSortBy]

theorem stratName_empty (q : String) (lim : Nat) : stratName q lim emptyStore = none := by
  simp [stratName, emptyStore]

/-- C7: if no strategy yields data, `smartSearch` returns the `no_results`
marker (first part); in particular this holds for every query against the
store in which every read errors or is empty (second part) — the function is
total, so no run can crash. -/
theorem smartSearch_no_results :
    (∀ (q : String) (hist : List Msg) (reqLim : Option Nat) (st : Store),
      (∀ p ∈ strategies q hist (defaultLimit reqLim), (p.2 st).isNone = true) →
      smartSearch q hist reqLim st = .noResults) ∧
    (∀ (q : String) (hist : List Msg) (reqLim : Option Nat),
      smartSearch q hist reqLim emptyStore = .noResults) := by
  have part1 : ∀ (q : String) (hist : List Msg) (reqLim : Option Nat) (st : Store),
      (∀ p ∈ strategies q hist (defaultLimit reqLim), (p.2 st).isNone = true) →
      smartSearch q hist reqLim st = .noResults := by
    intro q hist reqLim st h
    exact runStrats_all_none _ st fun p hp => Option.isNone_iff_eq_none.mp (h p hp)
  refine ⟨part1, ?_⟩
  intro q hist reqLim
  apply part1
  intro p hp
  have hmem : p ∈ strategies q hist (defaultLimit reqLim) := hp
  rw [Option.isNone_iff_eq_none]
  unfold strategies at hmem
  simp only [List.mem_cons, List.not_mem_nil, or_false] at hmem
  rcases hmem with rfl | rfl | rfl | rfl | rfl | rfl | rfl | rfl | rfl | rfl | rfl | rfl |
    rfl | rfl | rfl | rfl | rfl | rfl | rfl | rfl
  · exact stratTopOf_empty q _
  · exact stratTopN_empty q _
  · exact stratAllC_empty q _
  · exact stratFollowUp_empty q hist
  · exact stratEmail_empty q
  · exact stratPhone_empty q
  · exact stratJobId_empty q
  · exact stratSemantic_empty q
  · exact stratExperience_empty q
  · exact stratScore_empty q _
  · exact stratSalary_empty q _
  · exact stratSkill_empty q _
  · exact stratJobTitle_empty q _
  · exact stratStatus_empty q _
  · exact stratLocation_empty q _
  · exact stratClient_empty q _
  · exact stratJobs_empty q _
  · exact stratStatusTypes_empty q
  · exact stratCatchAll_empty q _
  · exact stratName_empty q _

/-- C7 witness: the concrete query `"zz"` against the all-empty store — every
strategy's hypothesis holds by evaluation, and the result is `no_results`. -/
theorem smartSearch_no_results_witness :
    smartSearch "zz" [] none emptyStore = .noResults :=
  smartSearch_no_results.1 "zz" [] none emptyStore (by decide)

-- Facts about takeWhile / dropWhile / scanFirst used by the extractSalary proof.

theorem mem_takeWhile_pred {p : Char → Bool} :
    ∀ (l : List Char) (c : Char), c ∈ l.takeWhile p → p c = true := by
  intro l
  induction l with
  | nil => intro c h; simp [List.takeWhile] at h
  | cons a t ih =>
    intro c h
    cases ha : p a with
    | true =>
      rw [List.takeWhile_cons, ha] at h
      rcases List.mem_cons.mp h with rfl | h'
      · exact ha
      · exact ih c h'
    | false =>
      rw [List.takeWhile_cons, ha] at h
      simp at h

theorem takeWhile_dropWhile_split {p : Char → Bool} :
    ∀ (l₁ l₂ : List Char), (∀ c ∈ l₁, p c = true) →
      (∀ c, l₂.head? = some c → p c = false) →
      (l₁ ++ l₂).takeWhile p = l₁ ∧ (l₁ ++ l₂).dropWhile p = l₂ := by
  intro l₁
  induction l₁ with
  | nil =>
    intro l₂ _ h2
    cases l₂ with
    | nil => simp
    | cons c cs =>
      have hc := h2 c rfl
      simp [List.takeWhile_cons, List.dropWhile_cons, hc]
  | cons a t ih =>
    intro l₂ h1 h2
    have ha : p a = true := h1 a (List.mem_cons_self _ _)
    have hrec := ih l₂ (fun c hc => h1 c (List.mem_cons_of_mem _ hc)) h2
    simp [List.takeWhile_cons, List.dropWhile_cons, ha, hrec.1, hrec.2]

theorem space_not_digit (c : Char) (h : isJsSpace c = true) : isDigitChar c = false := by
  simp only [isJsSpace, Bool.or_eq_true, decide_eq_true_eq] at h
  rcases h with ((((rfl | rfl) | rfl) | rfl) | rfl) | rfl <;> decide

theorem ell_not_digit (c : Char) (h : c = 'l' ∨ c = 'L') : isDigitChar c = false := by
  rcases h with rfl | rfl <;> decide

theorem ell_not_space (c : Char) (h : c = 'l' ∨ c = 'L') : isJsSpace c = false := by
  rcases h with rfl | rfl <;> decide

theorem scanFirst_eq_none_iff {α : Type} (f : List Char → Option α) :
    ∀ l, scanFirst f l = none ↔ ∀ s, s <:+ l → f s = none := by
  intro l
  induction l with
  | nil =>
    constructor
    · intro h s hs
      rw [List.suffix_nil.mp hs]
      exact h
    · intro h
      exact h [] List.nil_suffix
  | cons c cs ih =>
    constructor
    · intro h s hs
      have hparts : f (c :: cs) = none ∧ scanFirst f cs = none := by
        unfold scanFirst at h
        cases hf : f (c :: cs) with
        | none => rw [hf] at h; simpa [Option.orElse] using h
        | some a => rw [hf] at h; simp [Option.orElse] at h
      rcases List.suffix_cons_iff.mp hs with rfl | hs'
      · exact hparts.1
      · exact (ih.mp hparts.2) s hs'
    · intro h
      unfold scanFirst
      rw [h (c :: cs) (List.suffix_refl _)]
      simpa [Option.orElse] using ih.mpr fun s hs => h s (List.suffix_cons_iff.mpr (Or.inr hs))

theorem scanFirst_eq_some {α : Type} (f : List Char → Option α) :
    ∀ l a, scanFirst f l = some a → ∃ s, s <:+ l ∧ f s = some a := by
  intro l
  induction l with
  | nil =>
    intro a h
    exact ⟨[], List.suffix_refl _, h⟩
  | cons c cs ih =>
    intro a h
    unfold scanFirst at h
    cases hf : f (c :: cs) with
    | some b =>
      rw [hf] at h
      simp only [Option.orElse] at h
      cases h
      exact ⟨c :: cs, List.suffix_refl _, hf⟩
    | none =>
      rw [hf] at h
      simp only [Option.orElse] at h
      obtain ⟨s, hs, hfs⟩ := ih a h
      exact ⟨s, List.suffix_cons_iff.mpr (Or.inr hs), hfs⟩

theorem salaryMatchAt_some_iff (s : List Char) (n : Nat) :
    salaryMatchAt s = some n ↔
      ∃ ds ws tl, s = ds ++ ws ++ tl ∧ ds ≠ [] ∧
        (∀ c ∈ ds, isDigitChar c = true) ∧ (∀ c ∈ ws, isJsSpace c = true) ∧
        (∃ c tl2, tl = c :: tl2 ∧ (c = 'l' ∨ c = 'L')) ∧ n = digitsToNat ds := by
  constructor
  · intro h
    unfold salaryMatchAt at h
    rcases hds : s.takeWhile (fun c => isDigitChar c) with _ | ⟨d, ds'⟩
    · rw [hds] at h; simp at h
    · rcases htl : (s.dropWhile fun c => isDigitChar c).dropWhile (fun c => isJsSpace c)
          with _ | ⟨c, tl2⟩
      · rw [hds, htl] at h; simp at h
      · rw [hds, htl] at h
        simp only [] at h
        split at h
        · next hif =>
          have hc : c = 'l' ∨ c = 'L' := by simpa using hif
          cases h
          have h1 := List.takeWhile_append_dropWhile (p := fun c => isDigitChar c) (l := s)
          have h2 := List.takeWhile_append_dropWhile (p := fun c => isJsSpace c)
            (l := s.dropWhile fun c => isDigitChar c)
          rw [htl] at h2
          rw [hds] at h1
          refine ⟨d :: ds',
            (s.dropWhile fun c => isDigitChar c).takeWhile (fun c => isJsSpace c),
            c :: tl2, ?_, by simp, ?_, ?_, ⟨c, tl2, rfl, hc⟩, rfl⟩
          · rw [List.append_assoc, h2, h1]
          · intro x hx
            exact mem_takeWhile_pred s x (by rw [hds]; exact hx)
          · intro x hx
            exact mem_takeWhile_pred _ x hx
        · cases h
  · rintro ⟨ds, ws, tl, rfl, hne, hd, hw, ⟨c, tl2, rfl, hc⟩, rfl⟩
    have hsplit1 : (ds ++ (ws ++ c :: tl2)).takeWhile (fun x => isDigitChar x) = ds ∧
        (ds ++ (ws ++ c :: tl2)).dropWhile (fun x => isDigitChar x) = ws ++ c :: tl2 := by
      refine takeWhile_dropWhile_split ds (ws ++ c :: tl2) hd ?_
      intro x hx
      cases ws with
      | nil =>
        simp only [List.nil_append, List.head?_cons, Option.some.injEq] at hx
        rw [← hx]
        exact ell_not_digit c hc
      | cons w ws' =>
        simp only [List.cons_append, List.head?_cons, Option.some.injEq] at hx
        rw [← hx]
        exact space_not_digit w (hw w (List.mem_cons_self _ _))
    have hsplit2 : (ws ++ c :: tl2).takeWhile (fun x => isJsSpace x) = ws ∧
        (ws ++ c :: tl2).dropWhile (fun x => isJsSpace x) = c :: tl2 := by
      refine takeWhile_dropWhile_split ws (c :: tl2) hw ?_
      intro x hx
      simp only [List.head?_cons, Option.some.injEq] at hx
      rw [← hx]
      exact ell_not_space c hc
    unfold salaryMatchAt
    rw [List.append_assoc, hsplit1.1, hsplit1.2, hsplit2.2]
    cases ds with
    | nil => exact absurd rfl hne
    | cons d ds' =>
      have hcif : (c = 'l' || c = 'L') = true := by
        rcases hc with rfl | rfl <;> decide
      simp [hcif]

theorem salaryOcc_iff (q : String) (n : Nat) :
    SalaryOcc q n ↔ ∃ s, s <:+ q.toList ∧ salaryMatchAt s = some n := by
  constructor
  · rintro ⟨pre, ds, ws, tl, heq, hne, hd, hw, hc, hn⟩
    refine ⟨ds ++ ws ++ tl, ⟨pre, by rw [heq]; simp [List.append_assoc]⟩, ?_⟩
    exact (salaryMatchAt_some_iff _ n).mpr ⟨ds, ws, tl, rfl, hne, hd, hw, hc, hn⟩
  · rintro ⟨s, ⟨pre, hpre⟩, hm⟩
    obtain ⟨ds, ws, tl, rfl, hne, hd, hw, hc, hn⟩ := (salaryMatchAt_some_iff s n).mp hm
    exact ⟨pre, ds, ws, tl, by rw [← hpre]; simp [List.append_assoc], hne, hd, hw, hc, hn⟩

/-- C8: `extractSalary` returns `none` exactly when the query nowhere
contains a number followed (after optional whitespace) by an `l`/`lakh`/`lpa`
token; otherwise the returned amount is such an occurrence's number times
100 000, and the operator is `lt` precisely when `below` or `under` occurs in
the (raw) query, `gt` otherwise. -/
theorem extractSalary_spec :
    ∀ q : String,
      (extractSalary q = none ↔ ∀ n, ¬ SalaryOcc q n) ∧
      (∀ a op, extractSalary q = some (a, op) →
        (∃ n, SalaryOcc q n ∧ a = n * 100000) ∧
        (op = CmpDir.lt ↔ (jsIncludes q "below" || jsIncludes q "under") = true)) := by
  intro q
  constructor
  · constructor
    · intro h n hocc
      obtain ⟨s, hs, hm⟩ := (salaryOcc_iff q n).mp hocc
      have hnone : scanFirst salaryMatchAt q.toList = none := by
        unfold extractSalary at h
        exact Option.map_eq_none'.mp h
      rw [(scanFirst_eq_none_iff salaryMatchAt q.toList).mp hnone s hs] at hm
      cases hm
    · intro h
      unfold extractSalary
      rw [Option.map_eq_none']
      rw [scanFirst_eq_none_iff]
      intro s hs
      cases hm : salaryMatchAt s with
      | none => rfl
      | some n =>
        exact absurd ((salaryOcc_iff q n).mpr ⟨s, hs, hm⟩) (h n)
  · intro a op h
    unfold extractSalary at h
    obtain ⟨n, hn, hpair⟩ := Option.map_eq_some'.mp h
    obtain ⟨s, hs, hm⟩ := scanFirst_eq_some salaryMatchAt q.toList n hn
    injection hpair with h1 h2
    subst h1
    subst h2
    constructor
    · exact ⟨n, (salaryOcc_iff q n).mpr ⟨s, hs, hm⟩, rfl⟩
    · cases hb : (jsIncludes q "below" || jsIncludes q "under") <;> simp [hb]

/-- C8 witness: `"below 5 lpa"` — the extractor fires, the amount is an
occurrence's number times 100 000, and the operator is `lt` because `below`
occurs. -/
theorem extractSalary_spec_witness :
    (∃ n, SalaryOcc "below 5 lpa" n ∧ 500000 = n * 100000) ∧
      (CmpDir.lt = CmpDir.lt ↔
        (jsIncludes "below 5 lpa" "below" || jsIncludes "below 5 lpa" "under") = true) :=
  (extractSalary_spec "below 5 lpa").2 500000 CmpDir.lt (by decide)

theorem cacheGet_cacheSet_self (c : Cache) (k : String) (v : String × Nat) :
    cacheGet (cacheSet c k v) k = some v := by
  simp [cacheGet, cacheSet, List.find?]

/-- C3 (counterexample): `"pipeline report"` classifies as recruitment, yet
two identical calls with empty history one millisecond apart — well inside
the TTL — each route through the analytics branch before the cache is ever
consulted: both return the same report text, but the generation API is
invoked once per call, twice in total, and nothing is cached. -/
theorem sendMessage_analytics_bypasses_cache :
    (classifyQuery "pipeline report").type = QType.recruitment ∧
    cexEnv2.now - cexEnv1.now < CACHE_TTL ∧
    (sendMessage cexEnv1 "pipeline report" [] []).1 =
      (sendMessage cexEnv2 "pipeline report" []
        ((sendMessage cexEnv1 "pipeline report" [] []).2.1)).1 ∧
    (sendMessage cexEnv1 "pipeline report" [] []).2.2 +
      (sendMessage cexEnv2 "pipeline report" []
        ((sendMessage cexEnv1 "pipeline report" [] []).2.1)).2.2 = 2 := by
  decide

/-- C3 (amended): restricted to recruitment messages that bypass none of the
earlier branches (not a JD, not an analytics query, not a similar-candidates
trigger) and whose first call misses the cache: two identical calls with
empty history, the second within the TTL of the first, return the
byte-identical stored answer, and the generation API is invoked exactly once
across the two calls. -/
theorem sendMessage_cache_idempotent :
    ∀ (env1 env2 : Env) (msg : String) (cache : Cache) (ans : String),
      (classifyQuery msg).type = QType.recruitment →
      isJD msg = false →
      isAnalyticsQuery (jsTrim (jsToLower msg)) = false →
      similarTrigger (jsTrim (jsToLower msg)) = false →
      cacheGet cache (jsTrim (jsToLower msg)) = none →
      env1.genOutcome = some ans →
      env2.now - env1.now < CACHE_TTL →
      (sendMessage env1 msg [] cache).1 = .ok (.plain ans) ∧
      (sendMessage env2 msg [] ((sendMessage env1 msg [] cache).2.1)).1 =
        .ok (.plain ans) ∧
      (sendMessage env1 msg [] cache).2.2 +
        (sendMessage env2 msg [] ((sendMessage env1 msg [] cache).2.1)).2.2 = 1 := by
  intro env1 env2 msg cache ans hrec hjd han hsim hmiss hgen httl
  have hng : ¬ (classifyQuery msg).type = QType.greeting := by rw [hrec]; decide
  have hnu : ¬ (classifyQuery msg).type = QType.unclear := by rw [hrec]; decide
  have h1 : sendMessage env1 msg [] cache =
      (.ok (.plain ans),
       cacheSet cache (jsTrim (jsToLower msg)) (ans, env1.now), 1) := by
    simp [sendMessage, hng, hnu, hjd, han, hsim, hrec, hmiss, hgen]
  have h2 : sendMessage env2 msg []
      (cacheSet cache (jsTrim (jsToLower msg)) (ans, env1.now)) =
      (.ok (.plain ans),
       cacheSet cache (jsTrim (jsToLower msg)) (ans, env1.now), 0) := by
    simp [sendMessage, hng, hnu, hjd, han, hsim, hrec, cacheGet_cacheSet_self, httl]
  refine ⟨?_, ?_, ?_⟩ <;> simp [h1, h2]

/-- C3 witness: the message `"python candidates"` with an empty starting
cache; the first call answers `"A"` and caches it, the second call one
millisecond later returns the identical cached text without consulting its
own generation oracle. -/
theorem sendMessage_cache_idempotent_witness :
    (sendMessage idemEnv1 "python candidates" [] []).1 = .ok (.plain "A") ∧
    (sendMessage idemEnv2 "python candidates" []
      ((sendMessage idemEnv1 "python candidates" [] []).2.1)).1 = .ok (.plain "A") ∧
    (sendMessage idemEnv1 "python candidates" [] []).2.2 +
      (sendMessage idemEnv2 "python candidates" []
        ((sendMessage idemEnv1 "python candidates" [] []).2.1)).2.2 = 1 :=
  sendMessage_cache_idempotent idemEnv1 idemEnv2 "python candidates" [] "A"
    (by decide) (by decide) (by decide) (by decide) (by decide) (by decide) (by decide)

/-- C10: a `sendMessage` call either leaves the cache untouched, or — only
when the message classifies as recruitment, the caller-supplied history is
empty, and the generation call succeeded — writes exactly one entry under the
normalised message key.  In particular greeting, help, unclear and off-topic
replies, and recruitment replies produced with non-empty history, never
create or update a cache entry. -/
theorem sendMessage_cache_write_gate :
    ∀ (env : Env) (msg : String) (hist : List Msg) (cache : Cache),
      (sendMessage env msg hist cache).2.1 = cache ∨
      ((classifyQuery msg).type = QType.recruitment ∧ hist = [] ∧
        ∃ ans, env.genOutcome = some ans ∧
          (sendMessage env msg hist cache).2.1 =
            cacheSet cache (jsTrim (jsToLower msg)) (ans, env.now)) := by
  intro env msg hist cache
  by_cases hg : (classifyQuery msg).type = QType.greeting
  · left; simp [sendMessage, hg]
  by_cases hu : (classifyQuery msg).type = QType.unclear
  · left; simp [sendMessage, hg, hu]
  by_cases hjd : isJD msg = true
  · left; simp [sendMessage, hg, hu, hjd]
  by_cases han : isAnalyticsQuery (jsTrim (jsToLower msg)) = true
  · left; simp [sendMessage, hg, hu, hjd, han]
  by_cases hsim :
      (similarTrigger (jsTrim (jsToLower msg)) && env.similarOutcome.isSome) = true
  · left; simp [sendMessage, hg, hu, hjd, han, hsim]
  by_cases hrec : (classifyQuery msg).type = QType.recruitment
  · cases hist with
    | cons m t =>
      left
      cases hget : cacheGet cache (jsTrim (jsToLower msg)) with
      | none =>
        cases hgen : env.genOutcome <;>
          simp [sendMessage, hg, hu, hjd, han, hsim, hrec, hget, hgen]
      | some p =>
        obtain ⟨resp, ts⟩ := p
        cases hgen : env.genOutcome <;>
          simp [sendMessage, hg, hu, hjd, han, hsim, hrec, hget, hgen]
    | nil =>
      cases hget : cacheGet cache (jsTrim (jsToLower msg)) with
      | some p =>
        obtain ⟨resp, ts⟩ := p
        by_cases httl : env.now - ts < CACHE_TTL
        · left
          simp [sendMessage, hg, hu, hjd, han, hsim, hrec, hget, httl]
        · cases hgen : env.genOutcome with
          | none =>
            left
            simp [sendMessage, hg, hu, hjd, han, hsim, hrec, hget, httl, hgen]
          | some ans =>
            right
            refine ⟨hrec, rfl, ans, rfl, ?_⟩
            simp [sendMessage, hg, hu, hjd, han, hsim, hrec, hget, httl, hgen]
      | none =>
        cases hgen : env.genOutcome with
        | none =>
          left
          simp [sendMessage, hg, hu, hjd, han, hsim, hrec, hget, hgen]
        | some ans =>
          right
          refine ⟨hrec, rfl, ans, rfl, ?_⟩
          simp [sendMessage, hg, hu, hjd, han, hsim, hrec, hget, hgen]
  · left
    cases hgen : env.genOutcome <;>
      simp [sendMessage, hg, hu, hjd, han, hsim, hrec, hgen]

end ChatService
